import Mathlib

/-!
Shallow embedding of the pagination engine of `spotify-rs` (`src/model.rs`):
the offset `Page` and cursor `CursorPage` containers, their traversal
operations (`get_next` / `get_previous` / `get_after` / `get_before`) and
their aggregation operations (`get_remaining` / `get_all`).

The HTTP client (`crate::client`) and the `Endpoint` trait are not part of
the sources; per the spec (§6) they are modelled as capabilities: a `fetch`
function from a request (path plus ordered query parameters) to either a
deserialized page or an error, and an `endpoint_url` resolution function
with a `Default` element.  Network waits and the fixed pagination delay are
modelled as an event trace; the unbounded `loop` of the source is given a
fuel parameter, with `none` standing for fuel exhaustion (a real run of the
source corresponds to any sufficiently large fuel).
-/

namespace SpotifyRs

/-- The error kinds of `crate::error::Error` that the pagination code
distinguishes: `NoRemainingPages`, and every other (transport /
deserialization / API) error, kept opaque as a numeric code. -/
inductive Error where
  | noRemainingPages : Error
  | other : Nat → Error
deriving DecidableEq

/-- Modelled from the spec (§6, request capability): a GET request is a path
relative to the API base origin plus an ordered sequence of query
parameters, as passed to `spotify.get(path, query)`. -/
structure Request where
  path : String
  query : List (String × String)
deriving DecidableEq

/-- Observable events of an aggregation call: an issued continuation fetch,
and an awaited inter-request delay (`tokio::time::sleep(PAGINATION_INTERVAL)`). -/
inductive Event where
  | fetch : Request → Event
  | sleep : Event
deriving DecidableEq

def Event.isSleep : Event → Bool
  | .sleep => true
  | .fetch _ => false

/-- The requests recorded in an event trace, in order. -/
def traceRequests (tr : List Event) : List Request :=
  tr.filterMap fun e =>
    match e with
    | .fetch r => some r
    | .sleep => none

/-- Rust: `const PAGE_MAX_LIMIT: u32 = 50;`. -/
def PAGE_MAX_LIMIT : Nat := 50

/-- One step of Rust `str::replace`: scan left to right, replacing each
non-overlapping occurrence of the (non-empty) pattern `p :: pt` by `repl`.
The fuel is an upper bound on the number of scan steps; `replaceAll` below
instantiates it with the length of the string, which always suffices since
every step consumes at least one character. -/
def replaceAllFuel (p : Char) (pt repl : List Char) : Nat → List Char → List Char
  | 0, s => s
  | _ + 1, [] => []
  | fuel + 1, c :: rest =>
    if List.isPrefixOf (p :: pt) (c :: rest) then
      repl ++ replaceAllFuel p pt repl fuel (List.drop pt.length rest)
    else
      c :: replaceAllFuel p pt repl fuel rest

/-- Rust `s.replace(pat, repl)` on character lists.  For the empty pattern
the pagination code never calls it (the API base origin is a non-empty
constant), and we return the string unchanged. -/
def replaceAll (pat repl s : List Char) : List Char :=
  match pat with
  | [] => s
  | p :: pt => replaceAllFuel p pt repl s.length s

/-- Rust: `next.replace(client::API_URL, "")` — strip every occurrence of the API
base origin from a stored page URL before issuing the request, because the
client prefixes the origin itself. -/
def stripApiUrl (apiUrl next : String) : String :=
  ⟨replaceAll apiUrl.data [] next.data⟩

/-- Number of positions of `s` at which the (non-empty) pattern occurs as a
substring; used to state that the base origin appears exactly once in a
request target. -/
def countOccur (pat : List Char) : List Char → Nat
  | [] => 0
  | c :: rest =>
    (if List.isPrefixOf pat (c :: rest) then 1 else 0) + countOccur pat rest

def countOccurStr (pat s : String) : Nat :=
  countOccur pat.data s.data

/-- The struct `Page<T>` from `src/model.rs` (offset pagination). -/
structure Page (T : Type) where
  href : String
  limit : Nat
  next : Option String
  offset : Nat
  previous : Option String
  total : Nat
  items : List (Option T)
deriving DecidableEq

/-- Modelled from the spec (§6): the client handle used by offset-page
traversal — its base origin (`client::API_URL`) and its request capability,
which issues an authenticated GET and deserializes the JSON response into a
fresh `Page<T>`, or fails with an opaque error. -/
structure PageClient (T : Type) where
  apiUrl : String
  fetch : Request → Except Error (Page T)

/-- Rust `Page::filtered_items`: `self.items.clone().into_iter().flatten().collect()`. -/
def Page.filtered_items {T : Type} (p : Page T) : List T :=
  p.items.filterMap id

/-- Rust `Page::get_next`.  Returns the result together with the list of requests
issued (empty exactly when the guard `next = None` short-circuits). -/
def Page.get_next {T : Type} (c : PageClient T) (p : Page T) :
    Except Error (Page T) × List Request :=
  match p.next with
  | none => (.error .noRemainingPages, [])
  | some next =>
    let req : Request :=
      ⟨stripApiUrl c.apiUrl next, [("limit", toString p.limit)]⟩
    (c.fetch req, [req])

/-- Rust `Page::get_previous`, symmetric to `get_next`. -/
def Page.get_previous {T : Type} (c : PageClient T) (p : Page T) :
    Except Error (Page T) × List Request :=
  match p.previous with
  | none => (.error .noRemainingPages, [])
  | some previous =>
    let req : Request :=
      ⟨stripApiUrl c.apiUrl previous, [("limit", toString p.limit)]⟩
    (c.fetch req, [req])

/-- The forward `loop` body of `Page::get_remaining` / `Page::get_all`:
repeatedly call `get_next` on the working page, appending each fetched
page's items, sleeping after every successful fetch, breaking on
`NoRemainingPages` and propagating any other error.  The collected items
are returned relative to the loop entry (the caller prepends what it
already holds); `none` is fuel exhaustion. -/
def Page.nextLoop {T : Type} (c : PageClient T) :
    Nat → Page T → Option (Except Error (List (Option T))) × List Event
  | 0, _ => (none, [])
  | fuel + 1, page =>
    match Page.get_next c page with
    | (.ok p, reqs) =>
      let r := Page.nextLoop c fuel { p with items := [] }
      (r.1.map fun res =>
        match res with
        | .ok rest => .ok (p.items ++ rest)
        | .error e => .error e,
       reqs.map Event.fetch ++ Event.sleep :: r.2)
    | (.error .noRemainingPages, reqs) => (some (.ok []), reqs.map Event.fetch)
    | (.error (.other code), reqs) =>
      (some (.error (.other code)), reqs.map Event.fetch)

/-- The backward `loop` body of `Page::get_all`, identical to `nextLoop`
with `get_previous` in place of `get_next`. -/
def Page.prevLoop {T : Type} (c : PageClient T) :
    Nat → Page T → Option (Except Error (List (Option T))) × List Event
  | 0, _ => (none, [])
  | fuel + 1, page =>
    match Page.get_previous c page with
    | (.ok p, reqs) =>
      let r := Page.prevLoop c fuel { p with items := [] }
      (r.1.map fun res =>
        match res with
        | .ok rest => .ok (p.items ++ rest)
        | .error e => .error e,
       reqs.map Event.fetch ++ Event.sleep :: r.2)
    | (.error .noRemainingPages, reqs) => (some (.ok []), reqs.map Event.fetch)
    | (.error (.other code), reqs) =>
      (some (.error (.other code)), reqs.map Event.fetch)

/-- Rust `Page::get_remaining`: take the items, reset the working limit to
`PAGE_MAX_LIMIT`, and when a `next` link is present run the forward loop. -/
def Page.get_remaining {T : Type} (c : PageClient T) (fuel : Nat) (p : Page T) :
    Option (Except Error (List (Option T))) × List Event :=
  let items := p.items
  let self : Page T := { p with items := [], limit := PAGE_MAX_LIMIT }
  if self.next.isSome then
    let r := Page.nextLoop c fuel self
    (r.1.map fun res =>
      match res with
      | .ok rest => .ok (items ++ rest)
      | .error e => .error e,
     r.2)
  else
    (some (.ok items), [])

/-- Rust `Page::get_all`: take the items, reset the working limit to
`PAGE_MAX_LIMIT`, walk backward from a clone of the page (appending backward
items after the page's own items), then walk forward from the page. -/
def Page.get_all {T : Type} (c : PageClient T) (fuel : Nat) (p : Page T) :
    Option (Except Error (List (Option T))) × List Event :=
  let items := p.items
  let self : Page T := { p with items := [], limit := PAGE_MAX_LIMIT }
  let back :=
    if self.previous.isSome then Page.prevLoop c fuel self
    else (some (.ok []), [])
  match back with
  | (none, btr) => (none, btr)
  | (some (.error e), btr) => (some (.error e), btr)
  | (some (.ok backItems), btr) =>
    if self.next.isSome then
      let fwd := Page.nextLoop c fuel self
      (fwd.1.map fun res =>
        match res with
        | .ok fwdItems => .ok (items ++ backItems ++ fwdItems)
        | .error e => .error e,
       btr ++ fwd.2)
    else
      (some (.ok (items ++ backItems)), btr)

/-- The struct `Cursor` from `src/model.rs`: a pair of opaque continuation tokens. -/
structure Cursor where
  after : Option String
  before : Option String
deriving DecidableEq

/-- The serialized fields of `CursorPage<T, E>` — everything the server's
JSON response determines.  The `endpoint` field is `#[serde(skip)]`, so it
is *not* part of the deserialized data; `get_after` / `get_before` build the
resulting page from this data with `endpoint = E::default()`. -/
structure CursorPageData (T : Type) where
  href : String
  limit : Nat
  next : Option String
  cursors : Option Cursor
  total : Option Nat
  items : List (Option T)
deriving DecidableEq

/-- The struct `CursorPage<T, E>` from `src/model.rs` (cursor pagination), including
the in-memory `endpoint` descriptor value. -/
structure CursorPage (T E : Type) where
  href : String
  limit : Nat
  next : Option String
  cursors : Option Cursor
  total : Option Nat
  items : List (Option T)
  endpoint : E
deriving DecidableEq

/-- Modelled from the spec (§6, Endpoint Descriptor capability): the
`E: Endpoint + Default` bound of `CursorPage` — a deterministic URL
resolution function `endpoint_url` and the `Default::default()` element
that `#[serde(skip)]` installs on deserialization. -/
structure EndpointInstance (E : Type) where
  endpoint_url : E → String
  default : E

/-- Modelled from the spec (§6): the client handle used by cursor-page
traversal; its request capability deserializes the JSON response into the
serialized fields of a fresh `CursorPage<T, E>` (the skipped `endpoint`
field is not part of the response), or fails with an opaque error. -/
structure CursorClient (T : Type) where
  fetch : Request → Except Error (CursorPageData T)

/-- Assemble the page a cursor fetch returns: the deserialized fields plus
the `endpoint` value that deserialization installs. -/
def CursorPageData.toPage {T E : Type} (d : CursorPageData T) (e : E) :
    CursorPage T E :=
  { href := d.href, limit := d.limit, next := d.next, cursors := d.cursors,
    total := d.total, items := d.items, endpoint := e }

/-- Rust `CursorPage::filtered_items`. -/
def CursorPage.filtered_items {T E : Type} (p : CursorPage T E) : List T :=
  p.items.filterMap id

/-- Rust `CursorPage::get_after`: requires `cursors` and `cursors.after`; issues
a GET to the endpoint descriptor's URL with `after` and `limit` query
parameters.  The deserialized page carries `endpoint = E::default()`. -/
def CursorPage.get_after {T E : Type} (ed : EndpointInstance E)
    (c : CursorClient T) (p : CursorPage T E) :
    Except Error (CursorPage T E) × List Request :=
  match p.cursors with
  | none => (.error .noRemainingPages, [])
  | some cursors =>
    match cursors.after with
    | none => (.error .noRemainingPages, [])
    | some after =>
      let req : Request :=
        ⟨ed.endpoint_url p.endpoint,
         [("after", after), ("limit", toString p.limit)]⟩
      ((c.fetch req).map fun d => d.toPage ed.default, [req])

/-- Rust `CursorPage::get_before`, symmetric to `get_after`. -/
def CursorPage.get_before {T E : Type} (ed : EndpointInstance E)
    (c : CursorClient T) (p : CursorPage T E) :
    Except Error (CursorPage T E) × List Request :=
  match p.cursors with
  | none => (.error .noRemainingPages, [])
  | some cursors =>
    match cursors.before with
    | none => (.error .noRemainingPages, [])
    | some before =>
      let req : Request :=
        ⟨ed.endpoint_url p.endpoint,
         [("before", before), ("limit", toString p.limit)]⟩
      ((c.fetch req).map fun d => d.toPage ed.default, [req])

/-- The guard `if let Some(ref cursors) = page.cursors { if cursors.after.is_some() }`. -/
def CursorPage.hasAfter {T E : Type} (p : CursorPage T E) : Bool :=
  match p.cursors with
  | some cursors => cursors.after.isSome
  | none => false

/-- The guard for the backward direction, on `cursors.before`. -/
def CursorPage.hasBefore {T E : Type} (p : CursorPage T E) : Bool :=
  match p.cursors with
  | some cursors => cursors.before.isSome
  | none => false

/-- The forward `loop` body of `CursorPage::get_remaining` /
`CursorPage::get_all`, mirroring `Page.nextLoop` with `get_after`. -/
def CursorPage.afterLoop {T E : Type} (ed : EndpointInstance E)
    (c : CursorClient T) :
    Nat → CursorPage T E → Option (Except Error (List (Option T))) × List Event
  | 0, _ => (none, [])
  | fuel + 1, page =>
    match CursorPage.get_after ed c page with
    | (.ok p, reqs) =>
      let r := CursorPage.afterLoop ed c fuel { p with items := [] }
      (r.1.map fun res =>
        match res with
        | .ok rest => .ok (p.items ++ rest)
        | .error e => .error e,
       reqs.map Event.fetch ++ Event.sleep :: r.2)
    | (.error .noRemainingPages, reqs) => (some (.ok []), reqs.map Event.fetch)
    | (.error (.other code), reqs) =>
      (some (.error (.other code)), reqs.map Event.fetch)

/-- The backward `loop` body of `CursorPage::get_all`, with `get_before`. -/
def CursorPage.beforeLoop {T E : Type} (ed : EndpointInstance E)
    (c : CursorClient T) :
    Nat → CursorPage T E → Option (Except Error (List (Option T))) × List Event
  | 0, _ => (none, [])
  | fuel + 1, page =>
    match CursorPage.get_before ed c page with
    | (.ok p, reqs) =>
      let r := CursorPage.beforeLoop ed c fuel { p with items := [] }
      (r.1.map fun res =>
        match res with
        | .ok rest => .ok (p.items ++ rest)
        | .error e => .error e,
       reqs.map Event.fetch ++ Event.sleep :: r.2)
    | (.error .noRemainingPages, reqs) => (some (.ok []), reqs.map Event.fetch)
    | (.error (.other code), reqs) =>
      (some (.error (.other code)), reqs.map Event.fetch)

/-- Rust `CursorPage::get_remaining`: take the items, reset the working limit to
`PAGE_MAX_LIMIT`, and when an `after` token is present run the forward loop. -/
def CursorPage.get_remaining {T E : Type} (ed : EndpointInstance E)
    (c : CursorClient T) (fuel : Nat) (p : CursorPage T E) :
    Option (Except Error (List (Option T))) × List Event :=
  let items := p.items
  let self : CursorPage T E := { p with items := [], limit := PAGE_MAX_LIMIT }
  if self.hasAfter then
    let r := CursorPage.afterLoop ed c fuel self
    (r.1.map fun res =>
      match res with
      | .ok rest => .ok (items ++ rest)
      | .error e => .error e,
     r.2)
  else
    (some (.ok items), [])

/-- Rust `CursorPage::get_all`: take the items, reset the working limit, walk
backward from a clone of the page when a `before` token is present
(appending backward items after the page's own items), then walk forward
when an `after` token is present. -/
def CursorPage.get_all {T E : Type} (ed : EndpointInstance E)
    (c : CursorClient T) (fuel : Nat) (p : CursorPage T E) :
    Option (Except Error (List (Option T))) × List Event :=
  let items := p.items
  let self : CursorPage T E := { p with items := [], limit := PAGE_MAX_LIMIT }
  let back :=
    if self.hasBefore then CursorPage.beforeLoop ed c fuel self
    else (some (.ok []), [])
  match back with
  | (none, btr) => (none, btr)
  | (some (.error e), btr) => (some (.error e), btr)
  | (some (.ok backItems), btr) =>
    if self.hasAfter then
      let fwd := CursorPage.afterLoop ed c fuel self
      (fwd.1.map fun res =>
        match res with
        | .ok fwdItems => .ok (items ++ backItems ++ fwdItems)
        | .error e => .error e,
       btr ++ fwd.2)
    else
      (some (.ok (items ++ backItems)), btr)

/-- The call shape of `Page::filtered_items`: the method takes `&self` and
its body only clones `items`, so the observable state after the call is the
page itself, returned here explicitly alongside the result. -/
def Page.filtered_items_call {T : Type} (p : Page T) : List T × Page T :=
  (Page.filtered_items p, p)

/-- The call shape of `CursorPage::filtered_items` (`&self`, clone only). -/
def CursorPage.filtered_items_call {T E : Type} (p : CursorPage T E) :
    List T × CursorPage T E :=
  (CursorPage.filtered_items p, p)

/-! Concrete fixtures used by counterexamples and witnesses. -/

/-- An offset page over `Nat` items with original limit 20. -/
def exPage (its : List (Option Nat)) (nx pv : Option String) : Page Nat :=
  { href := "h", limit := 20, next := nx, offset := 0, previous := pv,
    total := 9, items := its }

/-- Last page of a forward chain. -/
def exP2 : Page Nat := exPage [some 3] none none

/-- Middle page of a forward chain, pointing at `/n1`. -/
def exP1 : Page Nat := exPage [some 2] (some "/n1") none

/-- Start of a forward chain `/n0 → /n1`. -/
def exP0 : Page Nat := exPage [some 1] (some "/n0") none

/-- A backward page with `previous = None`. -/
def exPm1 : Page Nat := exPage [some 10] none none

/-- Start page for `get_all`, with both a previous (`/p`) and next (`/n`) link. -/
def exPall0 : Page Nat := exPage [some 1] (some "/n") (some "/p")

/-- Page whose next link `/err` yields a transport error. -/
def exPb : Page Nat := exPage [some 5] (some "/err") none

/-- Start page whose second continuation fetch fails. -/
def exP5 : Page Nat := exPage [some 4] (some "/b") none

/-- A deterministic offset-page environment: the base origin is empty (the
stored links are already relative) and each known path returns a fixed page;
everything else is a transport error. -/
def exClient : PageClient Nat :=
  { apiUrl := ""
    fetch := fun req =>
      if req.path = "/n0" then .ok exP1
      else if req.path = "/n1" then .ok exP2
      else if req.path = "/p" then .ok exPm1
      else if req.path = "/n" then .ok exP2
      else if req.path = "/b" then .ok exPb
      else .error (.other 7) }

/-- An endpoint descriptor instance over `E = Nat` whose resolved URL
distinguishes the original page's descriptor (value 1) from the default
descriptor (value 0). -/
def exEndpoint : EndpointInstance Nat :=
  { endpoint_url := fun e => if e = 1 then "/orig" else "/dflt"
    default := 0 }

/-- Deserialized cursor-page data with original limit 20 and an
informational `next` URL that traversal must ignore. -/
def exCD (its : List (Option Nat)) (cs : Option Cursor) : CursorPageData Nat :=
  { href := "h", limit := 20, next := some "/ignored", cursors := cs,
    total := some 9, items := its }

/-- A cursor page built over the same data, with an explicit endpoint value. -/
def exCPage (its : List (Option Nat)) (cs : Option Cursor) (e : Nat) :
    CursorPage Nat Nat :=
  { href := "h", limit := 20, next := some "/ignored", cursors := cs,
    total := some 9, items := its, endpoint := e }

/-- Cursor start page for `get_all`: both tokens present, endpoint 1. -/
def exQ0 : CursorPage Nat Nat :=
  exCPage [some 1] (some { after := some "a0", before := some "b0" }) 1

/-- Cursor start page whose second continuation fetch fails. -/
def exQ5 : CursorPage Nat Nat :=
  exCPage [some 4] (some { after := some "ax", before := none }) 1

/-- A deterministic cursor-page environment, keyed on the full request. -/
def exCClient : CursorClient Nat :=
  { fetch := fun req =>
      if req = ⟨"/orig", [("before", "b0"), ("limit", "50")]⟩ then
        .ok (exCD [some 10] none)
      else if req = ⟨"/orig", [("after", "a0"), ("limit", "50")]⟩ then
        .ok (exCD [some 3] none)
      else if req = ⟨"/orig", [("after", "ax"), ("limit", "50")]⟩ then
        .ok (exCD [some 5] (some { after := some "ay", before := none }))
      else if req = ⟨"/orig", [("after", "ax"), ("limit", "20")]⟩ then
        .ok (exCD [some 5] (some { after := some "ay", before := none }))
      else .error (.other 7) }

/-! Theorems. -/

/-- Keeping the `some` values of a list of options, in order, is the same
as flattening the per-slot option contents. -/
theorem filterMap_id_eq_flatten {α : Type} (l : List (Option α)) :
    l.filterMap id = (l.map Option.toList).flatten := by
  induction l with
  | nil => rfl
  | cons hd tl ih => cases hd <;> simp [ih]

/-- C8: for every page (offset or cursor), `filtered_items` returns exactly
the present values of `items` in their original relative order with every
absent slot dropped; in particular on `[some a, none, some b]` it returns
`[a, b]`. -/
theorem c8_filtered_items_drops_nulls :
    (∀ (T : Type) (p : Page T),
      Page.filtered_items p = (p.items.map Option.toList).flatten) ∧
    (∀ (T E : Type) (p : CursorPage T E),
      CursorPage.filtered_items p = (p.items.map Option.toList).flatten) ∧
    (∀ (T : Type) (a b : T) (p : Page T), p.items = [some a, none, some b] →
      Page.filtered_items p = [a, b]) ∧
    (∀ (T E : Type) (a b : T) (p : CursorPage T E),
      p.items = [some a, none, some b] →
      CursorPage.filtered_items p = [a, b]) := by
  refine ⟨?_, ?_, ?_, ?_⟩
  · exact fun T p => filterMap_id_eq_flatten p.items
  · exact fun T E p => filterMap_id_eq_flatten p.items
  · intro T a b p h
    simp [Page.filtered_items, h]
  · intro T E a b p h
    simp [CursorPage.filtered_items, h]

theorem c8_filtered_items_drops_nulls_witness :
    Page.filtered_items (exPage [some 1, none, some 2] none none) = [1, 2] :=
  c8_filtered_items_drops_nulls.2.2.1 Nat 1 2
    (exPage [some 1, none, some 2] none none) rfl

/-- C9: `filtered_items` has no side effect on the page — the page after
the call is the page itself — and calling it twice in succession yields the
same sequence both times (both page kinds). -/
theorem c9_filtered_items_pure :
    (∀ (T : Type) (p : Page T),
      (Page.filtered_items_call p).2 = p ∧
      (Page.filtered_items_call (Page.filtered_items_call p).2).1 =
        (Page.filtered_items_call p).1) ∧
    (∀ (T E : Type) (p : CursorPage T E),
      (CursorPage.filtered_items_call p).2 = p ∧
      (CursorPage.filtered_items_call (CursorPage.filtered_items_call p).2).1 =
        (CursorPage.filtered_items_call p).1) :=
  ⟨fun _ _ => ⟨rfl, rfl⟩, fun _ _ _ => ⟨rfl, rfl⟩⟩

/-- C4: when the relevant link or token is absent, single-step traversal
fails with `NoRemainingPages` and no request is issued: `get_next` with
`next = None`, `get_previous` with `previous = None`, `get_after` with
`cursors = None` or `cursors.after = None`, `get_before` symmetrically. -/
theorem c4_absent_link_no_request :
    (∀ (T : Type) (c : PageClient T) (p : Page T), p.next = none →
      Page.get_next c p = (.error .noRemainingPages, [])) ∧
    (∀ (T : Type) (c : PageClient T) (p : Page T), p.previous = none →
      Page.get_previous c p = (.error .noRemainingPages, [])) ∧
    (∀ (T E : Type) (ed : EndpointInstance E) (c : CursorClient T)
        (p : CursorPage T E),
      (p.cursors = none ∨ ∃ cs, p.cursors = some cs ∧ cs.after = none) →
      CursorPage.get_after ed c p = (.error .noRemainingPages, [])) ∧
    (∀ (T E : Type) (ed : EndpointInstance E) (c : CursorClient T)
        (p : CursorPage T E),
      (p.cursors = none ∨ ∃ cs, p.cursors = some cs ∧ cs.before = none) →
      CursorPage.get_before ed c p = (.error .noRemainingPages, [])) := by
  refine ⟨?_, ?_, ?_, ?_⟩
  · intro T c p h
    simp [Page.get_next, h]
  · intro T c p h
    simp [Page.get_previous, h]
  · rintro T E ed c p (h | ⟨cs, hcs, ha⟩)
    · simp [CursorPage.get_after, h]
    · simp [CursorPage.get_after, hcs, ha]
  · rintro T E ed c p (h | ⟨cs, hcs, hb⟩)
    · simp [CursorPage.get_before, h]
    · simp [CursorPage.get_before, hcs, hb]

theorem c4_absent_link_no_request_witness :
    Page.get_next exClient exP2 = (.error .noRemainingPages, []) ∧
    Page.get_previous exClient exP2 = (.error .noRemainingPages, []) ∧
    CursorPage.get_after exEndpoint exCClient (exCPage [] none 1) =
      (.error .noRemainingPages, []) ∧
    CursorPage.get_before exEndpoint exCClient (exCPage [] none 1) =
      (.error .noRemainingPages, []) :=
  ⟨c4_absent_link_no_request.1 Nat exClient exP2 rfl,
   c4_absent_link_no_request.2.1 Nat exClient exP2 rfl,
   c4_absent_link_no_request.2.2.1 Nat Nat exEndpoint exCClient
     (exCPage [] none 1) (Or.inl rfl),
   c4_absent_link_no_request.2.2.2 Nat Nat exEndpoint exCClient
     (exCPage [] none 1) (Or.inl rfl)⟩

/-- Loop exit: no `next` link on the working page. -/
theorem nextLoop_brk {T : Type} (c : PageClient T) (fuel : Nat) (p : Page T)
    (h : p.next = none) :
    Page.nextLoop c (fuel + 1) p = (some (.ok []), []) := by
  simp [Page.nextLoop, Page.get_next, h]

/-- Loop step: a successful continuation fetch appends the fetched items,
records the fetch and the delay, and continues from the fetched page. -/
theorem nextLoop_ok {T : Type} (c : PageClient T) (fuel : Nat)
    (p p' : Page T) (n : String)
    (h : p.next = some n)
    (hf : c.fetch ⟨stripApiUrl c.apiUrl n, [("limit", toString p.limit)]⟩ =
      .ok p') :
    Page.nextLoop c (fuel + 1) p =
      ((Page.nextLoop c fuel { p' with items := [] }).1.map fun res =>
        match res with
        | .ok rest => .ok (p'.items ++ rest)
        | .error e => .error e,
       Event.fetch ⟨stripApiUrl c.apiUrl n, [("limit", toString p.limit)]⟩ ::
         Event.sleep :: (Page.nextLoop c fuel { p' with items := [] }).2) := by
  simp [Page.nextLoop, Page.get_next, h, hf]

/-- Loop abort: a continuation fetch failing with a non-`NoRemainingPages`
error ends the loop with exactly that error. -/
theorem nextLoop_err {T : Type} (c : PageClient T) (fuel : Nat)
    (p : Page T) (n : String) (code : Nat)
    (h : p.next = some n)
    (hf : c.fetch ⟨stripApiUrl c.apiUrl n, [("limit", toString p.limit)]⟩ =
      .error (.other code)) :
    Page.nextLoop c (fuel + 1) p =
      (some (.error (.other code)),
       [Event.fetch ⟨stripApiUrl c.apiUrl n, [("limit", toString p.limit)]⟩]) := by
  simp [Page.nextLoop, Page.get_next, h, hf]

/-- Backward-loop exit: no `previous` link on the working page. -/
theorem prevLoop_brk {T : Type} (c : PageClient T) (fuel : Nat) (p : Page T)
    (h : p.previous = none) :
    Page.prevLoop c (fuel + 1) p = (some (.ok []), []) := by
  simp [Page.prevLoop, Page.get_previous, h]

/-- Backward-loop step, symmetric to `nextLoop_ok`. -/
theorem prevLoop_ok {T : Type} (c : PageClient T) (fuel : Nat)
    (p p' : Page T) (u : String)
    (h : p.previous = some u)
    (hf : c.fetch ⟨stripApiUrl c.apiUrl u, [("limit", toString p.limit)]⟩ =
      .ok p') :
    Page.prevLoop c (fuel + 1) p =
      ((Page.prevLoop c fuel { p' with items := [] }).1.map fun res =>
        match res with
        | .ok rest => .ok (p'.items ++ rest)
        | .error e => .error e,
       Event.fetch ⟨stripApiUrl c.apiUrl u, [("limit", toString p.limit)]⟩ ::
         Event.sleep :: (Page.prevLoop c fuel { p' with items := [] }).2) := by
  simp [Page.prevLoop, Page.get_previous, h, hf]

/-- Backward-loop abort, symmetric to `nextLoop_err`. -/
theorem prevLoop_err {T : Type} (c : PageClient T) (fuel : Nat)
    (p : Page T) (u : String) (code : Nat)
    (h : p.previous = some u)
    (hf : c.fetch ⟨stripApiUrl c.apiUrl u, [("limit", toString p.limit)]⟩ =
      .error (.other code)) :
    Page.prevLoop c (fuel + 1) p =
      (some (.error (.other code)),
       [Event.fetch ⟨stripApiUrl c.apiUrl u, [("limit", toString p.limit)]⟩]) := by
  simp [Page.prevLoop, Page.get_previous, h, hf]

/-- C3: for every offset-page chain P0 → P1 → P2 with P2.next = None where
all fetches succeed, `get_remaining` on P0 returns Ok of the concatenation
P0.items ++ P1.items ++ P2.items in that order, and exactly two inter-fetch
delays are awaited during the call. -/
theorem c3_get_remaining_chain {T : Type} (c : PageClient T)
    (p0 p1 p2 : Page T) (n0 n1 : String) (k : Nat)
    (h0 : p0.next = some n0)
    (hf0 : c.fetch ⟨stripApiUrl c.apiUrl n0,
      [("limit", toString PAGE_MAX_LIMIT)]⟩ = .ok p1)
    (h1 : p1.next = some n1)
    (hf1 : c.fetch ⟨stripApiUrl c.apiUrl n1,
      [("limit", toString p1.limit)]⟩ = .ok p2)
    (h2 : p2.next = none) :
    Page.get_remaining c (k + 3) p0 =
      (some (.ok (p0.items ++ p1.items ++ p2.items)),
       [Event.fetch ⟨stripApiUrl c.apiUrl n0,
          [("limit", toString PAGE_MAX_LIMIT)]⟩,
        Event.sleep,
        Event.fetch ⟨stripApiUrl c.apiUrl n1,
          [("limit", toString p1.limit)]⟩,
        Event.sleep]) ∧
    List.countP Event.isSleep
      [Event.fetch ⟨stripApiUrl c.apiUrl n0,
         [("limit", toString PAGE_MAX_LIMIT)]⟩,
       Event.sleep,
       Event.fetch ⟨stripApiUrl c.apiUrl n1,
         [("limit", toString p1.limit)]⟩,
       Event.sleep] = 2 := by
  have e2 : Page.nextLoop c (k + 1) { p2 with items := [] } =
      (some (.ok []), []) :=
    nextLoop_brk c k { p2 with items := [] } (by simp [h2])
  have e1 : Page.nextLoop c (k + 2) { p1 with items := [] } =
      (some (.ok (p2.items ++ [])),
       [Event.fetch ⟨stripApiUrl c.apiUrl n1,
          [("limit", toString p1.limit)]⟩, Event.sleep]) := by
    have := nextLoop_ok c (k + 1) { p1 with items := [] } p2 n1
      (by simp [h1]) (by simpa using hf1)
    rw [show k + 1 + 1 = k + 2 from rfl] at this
    rw [this, e2]
    simp [e2]
  have e0 : Page.nextLoop c (k + 3)
      { p0 with items := [], limit := PAGE_MAX_LIMIT } =
      (some (.ok (p1.items ++ (p2.items ++ []))),
       [Event.fetch ⟨stripApiUrl c.apiUrl n0,
          [("limit", toString PAGE_MAX_LIMIT)]⟩, Event.sleep,
        Event.fetch ⟨stripApiUrl c.apiUrl n1,
          [("limit", toString p1.limit)]⟩, Event.sleep]) := by
    have := nextLoop_ok c (k + 2)
      { p0 with items := [], limit := PAGE_MAX_LIMIT } p1 n0
      (by simp [h0]) (by simpa using hf0)
    rw [show k + 2 + 1 = k + 3 from rfl] at this
    rw [this, e1]
    simp
  constructor
  · rw [h0] at e0
    simp [Page.get_remaining, h0, e0]
  · simp [Event.isSleep]

theorem c3_get_remaining_chain_witness :
    Page.get_remaining exClient 3 exP0 =
      (some (.ok (exP0.items ++ exP1.items ++ exP2.items)),
       [Event.fetch ⟨stripApiUrl exClient.apiUrl "/n0",
          [("limit", toString PAGE_MAX_LIMIT)]⟩,
        Event.sleep,
        Event.fetch ⟨stripApiUrl exClient.apiUrl "/n1",
          [("limit", toString exP1.limit)]⟩,
        Event.sleep]) :=
  (c3_get_remaining_chain exClient exP0 exP1 exP2 "/n0" "/n1" 0
    rfl rfl rfl rfl rfl).1

/-- C6: `get_next` / `get_previous` issue their request against the path
obtained by stripping the API base origin from the stored URL; on the
spec's example the stripped path is `/v1/tracks?offset=50` and the origin
appears exactly once in the resulting request target (origin ++ path). -/
theorem c6_path_normalization :
    (∀ (T : Type) (c : PageClient T) (p : Page T) (n : String),
      p.next = some n →
      Page.get_next c p =
        (c.fetch ⟨stripApiUrl c.apiUrl n, [("limit", toString p.limit)]⟩,
         [⟨stripApiUrl c.apiUrl n, [("limit", toString p.limit)]⟩])) ∧
    (∀ (T : Type) (c : PageClient T) (p : Page T) (u : String),
      p.previous = some u →
      Page.get_previous c p =
        (c.fetch ⟨stripApiUrl c.apiUrl u, [("limit", toString p.limit)]⟩,
         [⟨stripApiUrl c.apiUrl u, [("limit", toString p.limit)]⟩])) ∧
    stripApiUrl "https://api.example" "https://api.example/v1/tracks?offset=50" =
      "/v1/tracks?offset=50" ∧
    countOccurStr "https://api.example"
      ("https://api.example" ++
        stripApiUrl "https://api.example"
          "https://api.example/v1/tracks?offset=50") = 1 := by
  refine ⟨?_, ?_, by decide, by decide⟩
  · intro T c p n h
    simp [Page.get_next, h]
  · intro T c p u h
    simp [Page.get_previous, h]

theorem c6_path_normalization_witness :
    Page.get_next exClient exP0 =
      (exClient.fetch ⟨stripApiUrl exClient.apiUrl "/n0",
         [("limit", toString exP0.limit)]⟩,
       [⟨stripApiUrl exClient.apiUrl "/n0",
         [("limit", toString exP0.limit)]⟩]) :=
  c6_path_normalization.1 Nat exClient exP0 "/n0" rfl

/-- Unfolding of a permitted `get_after` call: both tokens guards pass and
the GET goes to the endpoint descriptor's URL. -/
theorem get_after_eq {T E : Type} (ed : EndpointInstance E) (c : CursorClient T)
    (p : CursorPage T E) (cs : Cursor) (a : String)
    (hc : p.cursors = some cs) (ha : cs.after = some a) :
    CursorPage.get_after ed c p =
      ((c.fetch ⟨ed.endpoint_url p.endpoint,
          [("after", a), ("limit", toString p.limit)]⟩).map
        fun d => d.toPage ed.default,
       [⟨ed.endpoint_url p.endpoint,
         [("after", a), ("limit", toString p.limit)]⟩]) := by
  simp [CursorPage.get_after, hc, ha]

/-- Unfolding of a permitted `get_before` call, symmetric to `get_after_eq`. -/
theorem get_before_eq {T E : Type} (ed : EndpointInstance E) (c : CursorClient T)
    (p : CursorPage T E) (cs : Cursor) (b : String)
    (hc : p.cursors = some cs) (hb : cs.before = some b) :
    CursorPage.get_before ed c p =
      ((c.fetch ⟨ed.endpoint_url p.endpoint,
          [("before", b), ("limit", toString p.limit)]⟩).map
        fun d => d.toPage ed.default,
       [⟨ed.endpoint_url p.endpoint,
         [("before", b), ("limit", toString p.limit)]⟩]) := by
  simp [CursorPage.get_before, hc, hb]

/-- C7: with `cursors.after` present, `get_after` issues its GET against the
endpoint descriptor's resolved URL with query parameters `after=<token>`
and `limit=<current limit>` — and the request is independent of the page's
own `next` field (symmetrically for `get_before` / `before`). -/
theorem c7_cursor_refetch_targets_endpoint :
    (∀ (T E : Type) (ed : EndpointInstance E) (c : CursorClient T)
        (p : CursorPage T E) (cs : Cursor) (a : String),
      p.cursors = some cs → cs.after = some a →
      CursorPage.get_after ed c p =
        ((c.fetch ⟨ed.endpoint_url p.endpoint,
            [("after", a), ("limit", toString p.limit)]⟩).map
          fun d => d.toPage ed.default,
         [⟨ed.endpoint_url p.endpoint,
           [("after", a), ("limit", toString p.limit)]⟩])) ∧
    (∀ (T E : Type) (ed : EndpointInstance E) (c : CursorClient T)
        (p : CursorPage T E) (cs : Cursor) (b : String),
      p.cursors = some cs → cs.before = some b →
      CursorPage.get_before ed c p =
        ((c.fetch ⟨ed.endpoint_url p.endpoint,
            [("before", b), ("limit", toString p.limit)]⟩).map
          fun d => d.toPage ed.default,
         [⟨ed.endpoint_url p.endpoint,
           [("before", b), ("limit", toString p.limit)]⟩])) ∧
    (∀ (T E : Type) (ed : EndpointInstance E) (c : CursorClient T)
        (p : CursorPage T E) (n' : Option String),
      CursorPage.get_after ed c { p with next := n' } =
        CursorPage.get_after ed c p) ∧
    (∀ (T E : Type) (ed : EndpointInstance E) (c : CursorClient T)
        (p : CursorPage T E) (n' : Option String),
      CursorPage.get_before ed c { p with next := n' } =
        CursorPage.get_before ed c p) := by
  refine ⟨?_, ?_, ?_, ?_⟩
  · intro T E ed c p cs a hc ha
    exact get_after_eq ed c p cs a hc ha
  · intro T E ed c p cs b hc hb
    exact get_before_eq ed c p cs b hc hb
  · intro T E ed c p n'
    rfl
  · intro T E ed c p n'
    rfl

theorem c7_cursor_refetch_targets_endpoint_witness :
    CursorPage.get_after exEndpoint exCClient exQ0 =
      ((exCClient.fetch ⟨exEndpoint.endpoint_url exQ0.endpoint,
          [("after", "a0"), ("limit", toString exQ0.limit)]⟩).map
        fun d => d.toPage exEndpoint.default,
       [⟨exEndpoint.endpoint_url exQ0.endpoint,
         [("after", "a0"), ("limit", toString exQ0.limit)]⟩]) :=
  c7_cursor_refetch_targets_endpoint.1 Nat Nat exEndpoint exCClient exQ0
    { after := some "a0", before := some "b0" } "a0" rfl rfl

/-- C10: a page produced by a successful `get_after` / `get_before` has its
`endpoint` field equal to the descriptor's default value (the field is
skipped during deserialization), so a subsequent traversal step from such a
page targets the default descriptor's URL. -/
theorem c10_endpoint_reset_to_default :
    (∀ (T E : Type) (ed : EndpointInstance E) (c : CursorClient T)
        (p p' : CursorPage T E) (reqs : List Request),
      CursorPage.get_after ed c p = (.ok p', reqs) →
      p'.endpoint = ed.default) ∧
    (∀ (T E : Type) (ed : EndpointInstance E) (c : CursorClient T)
        (p p' : CursorPage T E) (reqs : List Request),
      CursorPage.get_before ed c p = (.ok p', reqs) →
      p'.endpoint = ed.default) ∧
    (∀ (T E : Type) (ed : EndpointInstance E) (c : CursorClient T)
        (p p' : CursorPage T E) (reqs : List Request) (cs : Cursor) (a : String),
      CursorPage.get_after ed c p = (.ok p', reqs) →
      p'.cursors = some cs → cs.after = some a →
      (CursorPage.get_after ed c p').2 =
        [⟨ed.endpoint_url ed.default,
          [("after", a), ("limit", toString p'.limit)]⟩]) := by
  have key : ∀ (T E : Type) (ed : EndpointInstance E) (c : CursorClient T)
      (p p' : CursorPage T E) (reqs : List Request),
      CursorPage.get_after ed c p = (.ok p', reqs) →
      p'.endpoint = ed.default := by
    intro T E ed c p p' reqs h
    rcases hc : p.cursors with _ | cs
    · simp [CursorPage.get_after, hc] at h
    · rcases ha : cs.after with _ | a
      · simp [CursorPage.get_after, hc, ha] at h
      · rw [get_after_eq ed c p cs a hc ha] at h
        rcases hf : c.fetch ⟨ed.endpoint_url p.endpoint,
            [("after", a), ("limit", toString p.limit)]⟩ with e | d
        · rw [hf] at h
          simp [Except.map] at h
        · rw [hf] at h
          simp [Except.map] at h
          rw [← h.1]
          rfl
  refine ⟨key, ?_, ?_⟩
  · intro T E ed c p p' reqs h
    rcases hc : p.cursors with _ | cs
    · simp [CursorPage.get_before, hc] at h
    · rcases hb : cs.before with _ | b
      · simp [CursorPage.get_before, hc, hb] at h
      · rw [get_before_eq ed c p cs b hc hb] at h
        rcases hf : c.fetch ⟨ed.endpoint_url p.endpoint,
            [("before", b), ("limit", toString p.limit)]⟩ with e | d
        · rw [hf] at h
          simp [Except.map] at h
        · rw [hf] at h
          simp [Except.map] at h
          rw [← h.1]
          rfl
  · intro T E ed c p p' reqs cs a h hc ha
    have hend := key T E ed c p p' reqs h
    rw [get_after_eq ed c p' cs a hc ha, hend]

theorem c10_endpoint_reset_to_default_witness :
    ((exCD [some 5] (some { after := some "ay", before := none })).toPage
        (0 : Nat)).endpoint = exEndpoint.default ∧
    (CursorPage.get_after exEndpoint exCClient
        ((exCD [some 5] (some { after := some "ay", before := none })).toPage
          (0 : Nat))).2 =
      [⟨exEndpoint.endpoint_url exEndpoint.default,
        [("after", "ay"),
         ("limit", toString ((exCD [some 5]
           (some { after := some "ay", before := none })).toPage (0 : Nat)).limit)]⟩] := by
  have h : CursorPage.get_after exEndpoint exCClient exQ5 =
      (.ok ((exCD [some 5] (some { after := some "ay", before := none })).toPage
        (0 : Nat)),
       [⟨"/orig", [("after", "ax"), ("limit", "20")]⟩]) := by rfl
  exact ⟨c10_endpoint_reset_to_default.1 Nat Nat exEndpoint exCClient exQ5 _ _ h,
    c10_endpoint_reset_to_default.2.2 Nat Nat exEndpoint exCClient exQ5 _ _
      { after := some "ay", before := none } "ay" h rfl rfl⟩

/-- Loop exit when the continuation fetch itself reports `NoRemainingPages`. -/
theorem nextLoop_nrp {T : Type} (c : PageClient T) (fuel : Nat)
    (p : Page T) (n : String)
    (h : p.next = some n)
    (hf : c.fetch ⟨stripApiUrl c.apiUrl n, [("limit", toString p.limit)]⟩ =
      .error .noRemainingPages) :
    Page.nextLoop c (fuel + 1) p =
      (some (.ok []),
       [Event.fetch ⟨stripApiUrl c.apiUrl n, [("limit", toString p.limit)]⟩]) := by
  simp [Page.nextLoop, Page.get_next, h, hf]

/-- Backward-loop exit when the fetch itself reports `NoRemainingPages`. -/
theorem prevLoop_nrp {T : Type} (c : PageClient T) (fuel : Nat)
    (p : Page T) (u : String)
    (h : p.previous = some u)
    (hf : c.fetch ⟨stripApiUrl c.apiUrl u, [("limit", toString p.limit)]⟩ =
      .error .noRemainingPages) :
    Page.prevLoop c (fuel + 1) p =
      (some (.ok []),
       [Event.fetch ⟨stripApiUrl c.apiUrl u, [("limit", toString p.limit)]⟩]) := by
  simp [Page.prevLoop, Page.get_previous, h, hf]

/-- If some fetch recorded in a forward-loop trace failed with a
non-`NoRemainingPages` error, the loop's result is exactly that error. -/
theorem nextLoop_fetch_err {T : Type} (c : PageClient T) :
    ∀ (fuel : Nat) (p : Page T) (req : Request) (code : Nat),
      Event.fetch req ∈ (Page.nextLoop c fuel p).2 →
      c.fetch req = .error (.other code) →
      (Page.nextLoop c fuel p).1 = some (.error (.other code)) := by
  intro fuel
  induction fuel with
  | zero =>
    intro p req code hmem _
    simp [Page.nextLoop] at hmem
  | succ m ih =>
    intro p req code hmem hf
    rcases hn : p.next with _ | nx
    · rw [nextLoop_brk c m p hn] at hmem
      simp at hmem
    · rcases hfr : c.fetch ⟨stripApiUrl c.apiUrl nx,
          [("limit", toString p.limit)]⟩ with e | p'
      · rcases e with _ | code'
        · rw [nextLoop_nrp c m p nx hn hfr] at hmem
          simp at hmem
          rw [hmem] at hf
          rw [hf] at hfr
          simp at hfr
        · rw [nextLoop_err c m p nx code' hn hfr] at hmem ⊢
          simp at hmem
          rw [hmem] at hf
          rw [hf] at hfr
          simp at hfr
          rw [hfr]
      · rw [nextLoop_ok c m p p' nx hn hfr] at hmem ⊢
        simp at hmem
        rcases hmem with hmem | hmem
        · rw [hmem] at hf
          rw [hf] at hfr
          simp at hfr
        · have := ih { p' with items := [] } req code (by simpa using hmem) hf
          simp [this]

/-- Backward-loop analogue of `nextLoop_fetch_err`. -/
theorem prevLoop_fetch_err {T : Type} (c : PageClient T) :
    ∀ (fuel : Nat) (p : Page T) (req : Request) (code : Nat),
      Event.fetch req ∈ (Page.prevLoop c fuel p).2 →
      c.fetch req = .error (.other code) →
      (Page.prevLoop c fuel p).1 = some (.error (.other code)) := by
  intro fuel
  induction fuel with
  | zero =>
    intro p req code hmem _
    simp [Page.prevLoop] at hmem
  | succ m ih =>
    intro p req code hmem hf
    rcases hu : p.previous with _ | u
    · rw [prevLoop_brk c m p hu] at hmem
      simp at hmem
    · rcases hfr : c.fetch ⟨stripApiUrl c.apiUrl u,
          [("limit", toString p.limit)]⟩ with e | p'
      · rcases e with _ | code'
        · rw [prevLoop_nrp c m p u hu hfr] at hmem
          simp at hmem
          rw [hmem] at hf
          rw [hf] at hfr
          simp at hfr
        · rw [prevLoop_err c m p u code' hu hfr] at hmem ⊢
          simp at hmem
          rw [hmem] at hf
          rw [hf] at hfr
          simp at hfr
          rw [hfr]
      · rw [prevLoop_ok c m p p' u hu hfr] at hmem ⊢
        simp at hmem
        rcases hmem with hmem | hmem
        · rw [hmem] at hf
          rw [hf] at hfr
          simp at hfr
        · have := ih { p' with items := [] } req code (by simpa using hmem) hf
          simp [this]

/-- Cursor forward-loop exit: no cursor object on the working page. -/
theorem afterLoop_none {T E : Type} (ed : EndpointInstance E)
    (c : CursorClient T) (fuel : Nat) (p : CursorPage T E)
    (hc : p.cursors = none) :
    CursorPage.afterLoop ed c (fuel + 1) p = (some (.ok []), []) := by
  simp [CursorPage.afterLoop, CursorPage.get_after, hc]

/-- Cursor forward-loop exit: no `after` token on the working page. -/
theorem afterLoop_noTok {T E : Type} (ed : EndpointInstance E)
    (c : CursorClient T) (fuel : Nat) (p : CursorPage T E) (cs : Cursor)
    (hc : p.cursors = some cs) (ha : cs.after = none) :
    CursorPage.afterLoop ed c (fuel + 1) p = (some (.ok []), []) := by
  simp [CursorPage.afterLoop, CursorPage.get_after, hc, ha]

/-- Cursor forward-loop step: a successful `get_after` fetch. -/
theorem afterLoop_ok {T E : Type} (ed : EndpointInstance E)
    (c : CursorClient T) (fuel : Nat) (p : CursorPage T E)
    (d : CursorPageData T) (cs : Cursor) (a : String)
    (hc : p.cursors = some cs) (ha : cs.after = some a)
    (hf : c.fetch ⟨ed.endpoint_url p.endpoint,
      [("after", a), ("limit", toString p.limit)]⟩ = .ok d) :
    CursorPage.afterLoop ed c (fuel + 1) p =
      ((CursorPage.afterLoop ed c fuel
          { d.toPage ed.default with items := [] }).1.map fun res =>
        match res with
        | .ok rest => .ok (d.items ++ rest)
        | .error e => .error e,
       Event.fetch ⟨ed.endpoint_url p.endpoint,
           [("after", a), ("limit", toString p.limit)]⟩ ::
         Event.sleep ::
           (CursorPage.afterLoop ed c fuel
             { d.toPage ed.default with items := [] }).2) := by
  simp [CursorPage.afterLoop, CursorPage.get_after, CursorPageData.toPage,
    Except.map, hc, ha, hf]

/-- Cursor forward-loop exit: the fetch itself reports `NoRemainingPages`. -/
theorem afterLoop_nrp {T E : Type} (ed : EndpointInstance E)
    (c : CursorClient T) (fuel : Nat) (p : CursorPage T E)
    (cs : Cursor) (a : String)
    (hc : p.cursors = some cs) (ha : cs.after = some a)
    (hf : c.fetch ⟨ed.endpoint_url p.endpoint,
      [("after", a), ("limit", toString p.limit)]⟩ = .error .noRemainingPages) :
    CursorPage.afterLoop ed c (fuel + 1) p =
      (some (.ok []),
       [Event.fetch ⟨ed.endpoint_url p.endpoint,
         [("after", a), ("limit", toString p.limit)]⟩]) := by
  simp [CursorPage.afterLoop, CursorPage.get_after, Except.map, hc, ha, hf]

/-- Cursor forward-loop abort: the fetch fails with another error. -/
theorem afterLoop_err {T E : Type} (ed : EndpointInstance E)
    (c : CursorClient T) (fuel : Nat) (p : CursorPage T E)
    (cs : Cursor) (a : String) (code : Nat)
    (hc : p.cursors = some cs) (ha : cs.after = some a)
    (hf : c.fetch ⟨ed.endpoint_url p.endpoint,
      [("after", a), ("limit", toString p.limit)]⟩ = .error (.other code)) :
    CursorPage.afterLoop ed c (fuel + 1) p =
      (some (.error (.other code)),
       [Event.fetch ⟨ed.endpoint_url p.endpoint,
         [("after", a), ("limit", toString p.limit)]⟩]) := by
  simp [CursorPage.afterLoop, CursorPage.get_after, Except.map, hc, ha, hf]

/-- Cursor backward-loop exit: no cursor object on the working page. -/
theorem beforeLoop_none {T E : Type} (ed : EndpointInstance E)
    (c : CursorClient T) (fuel : Nat) (p : CursorPage T E)
    (hc : p.cursors = none) :
    CursorPage.beforeLoop ed c (fuel + 1) p = (some (.ok []), []) := by
  simp [CursorPage.beforeLoop, CursorPage.get_before, hc]

/-- Cursor backward-loop exit: no `before` token on the working page. -/
theorem beforeLoop_noTok {T E : Type} (ed : EndpointInstance E)
    (c : CursorClient T) (fuel : Nat) (p : CursorPage T E) (cs : Cursor)
    (hc : p.cursors = some cs) (hb : cs.before = none) :
    CursorPage.beforeLoop ed c (fuel + 1) p = (some (.ok []), []) := by
  simp [CursorPage.beforeLoop, CursorPage.get_before, hc, hb]

/-- Cursor backward-loop step: a successful `get_before` fetch. -/
theorem beforeLoop_ok {T E : Type} (ed : EndpointInstance E)
    (c : CursorClient T) (fuel : Nat) (p : CursorPage T E)
    (d : CursorPageData T) (cs : Cursor) (b : String)
    (hc : p.cursors = some cs) (hb : cs.before = some b)
    (hf : c.fetch ⟨ed.endpoint_url p.endpoint,
      [("before", b), ("limit", toString p.limit)]⟩ = .ok d) :
    CursorPage.beforeLoop ed c (fuel + 1) p =
      ((CursorPage.beforeLoop ed c fuel
          { d.toPage ed.default with items := [] }).1.map fun res =>
        match res with
        | .ok rest => .ok (d.items ++ rest)
        | .error e => .error e,
       Event.fetch ⟨ed.endpoint_url p.endpoint,
           [("before", b), ("limit", toString p.limit)]⟩ ::
         Event.sleep ::
           (CursorPage.beforeLoop ed c fuel
             { d.toPage ed.default with items := [] }).2) := by
  simp [CursorPage.beforeLoop, CursorPage.get_before, CursorPageData.toPage,
    Except.map, hc, hb, hf]

/-- Cursor backward-loop exit: the fetch itself reports `NoRemainingPages`. -/
theorem beforeLoop_nrp {T E : Type} (ed : EndpointInstance E)
    (c : CursorClient T) (fuel : Nat) (p : CursorPage T E)
    (cs : Cursor) (b : String)
    (hc : p.cursors = some cs) (hb : cs.before = some b)
    (hf : c.fetch ⟨ed.endpoint_url p.endpoint,
      [("before", b), ("limit", toString p.limit)]⟩ = .error .noRemainingPages) :
    CursorPage.beforeLoop ed c (fuel + 1) p =
      (some (.ok []),
       [Event.fetch ⟨ed.endpoint_url p.endpoint,
         [("before", b), ("limit", toString p.limit)]⟩]) := by
  simp [CursorPage.beforeLoop, CursorPage.get_before, Except.map, hc, hb, hf]

/-- Cursor backward-loop abort: the fetch fails with another error. -/
theorem beforeLoop_err {T E : Type} (ed : EndpointInstance E)
    (c : CursorClient T) (fuel : Nat) (p : CursorPage T E)
    (cs : Cursor) (b : String) (code : Nat)
    (hc : p.cursors = some cs) (hb : cs.before = some b)
    (hf : c.fetch ⟨ed.endpoint_url p.endpoint,
      [("before", b), ("limit", toString p.limit)]⟩ = .error (.other code)) :
    CursorPage.beforeLoop ed c (fuel + 1) p =
      (some (.error (.other code)),
       [Event.fetch ⟨ed.endpoint_url p.endpoint,
         [("before", b), ("limit", toString p.limit)]⟩]) := by
  simp [CursorPage.beforeLoop, CursorPage.get_before, Except.map, hc, hb, hf]

/-- Cursor analogue of `nextLoop_fetch_err`. -/
theorem afterLoop_fetch_err {T E : Type} (ed : EndpointInstance E)
    (c : CursorClient T) :
    ∀ (fuel : Nat) (p : CursorPage T E) (req : Request) (code : Nat),
      Event.fetch req ∈ (CursorPage.afterLoop ed c fuel p).2 →
      c.fetch req = .error (.other code) →
      (CursorPage.afterLoop ed c fuel p).1 = some (.error (.other code)) := by
  intro fuel
  induction fuel with
  | zero =>
    intro p req code hmem _
    simp [CursorPage.afterLoop] at hmem
  | succ m ih =>
    intro p req code hmem hf
    rcases hc : p.cursors with _ | cs
    · rw [afterLoop_none ed c m p hc] at hmem
      simp at hmem
    · rcases ha : cs.after with _ | a
      · rw [afterLoop_noTok ed c m p cs hc ha] at hmem
        simp at hmem
      · rcases hfr : c.fetch ⟨ed.endpoint_url p.endpoint,
            [("after", a), ("limit", toString p.limit)]⟩ with e | d
        · rcases e with _ | code'
          · rw [afterLoop_nrp ed c m p cs a hc ha hfr] at hmem
            simp at hmem
            rw [hmem] at hf
            rw [hf] at hfr
            simp at hfr
          · rw [afterLoop_err ed c m p cs a code' hc ha hfr] at hmem ⊢
            simp at hmem
            rw [hmem] at hf
            rw [hf] at hfr
            simp at hfr
            rw [hfr]
        · rw [afterLoop_ok ed c m p d cs a hc ha hfr] at hmem ⊢
          simp at hmem
          rcases hmem with hmem | hmem
          · rw [hmem] at hf
            rw [hf] at hfr
            simp at hfr
          · have := ih { d.toPage ed.default with items := [] } req code
              (by simpa using hmem) hf
            simp [this]

/-- Cursor analogue of `prevLoop_fetch_err`. -/
theorem beforeLoop_fetch_err {T E : Type} (ed : EndpointInstance E)
    (c : CursorClient T) :
    ∀ (fuel : Nat) (p : CursorPage T E) (req : Request) (code : Nat),
      Event.fetch req ∈ (CursorPage.beforeLoop ed c fuel p).2 →
      c.fetch req = .error (.other code) →
      (CursorPage.beforeLoop ed c fuel p).1 = some (.error (.other code)) := by
  intro fuel
  induction fuel with
  | zero =>
    intro p req code hmem _
    simp [CursorPage.beforeLoop] at hmem
  | succ m ih =>
    intro p req code hmem hf
    rcases hc : p.cursors with _ | cs
    · rw [beforeLoop_none ed c m p hc] at hmem
      simp at hmem
    · rcases hb : cs.before with _ | b
      · rw [beforeLoop_noTok ed c m p cs hc hb] at hmem
        simp at hmem
      · rcases hfr : c.fetch ⟨ed.endpoint_url p.endpoint,
            [("before", b), ("limit", toString p.limit)]⟩ with e | d
        · rcases e with _ | code'
          · rw [beforeLoop_nrp ed c m p cs b hc hb hfr] at hmem
            simp at hmem
            rw [hmem] at hf
            rw [hf] at hfr
            simp at hfr
          · rw [beforeLoop_err ed c m p cs b code' hc hb hfr] at hmem ⊢
            simp at hmem
            rw [hmem] at hf
            rw [hf] at hfr
            simp at hfr
            rw [hfr]
        · rw [beforeLoop_ok ed c m p d cs b hc hb hfr] at hmem ⊢
          simp at hmem
          rcases hmem with hmem | hmem
          · rw [hmem] at hf
            rw [hf] at hfr
            simp at hfr
          · have := ih { d.toPage ed.default with items := [] } req code
              (by simpa using hmem) hf
            simp [this]

/-- Lift of `nextLoop_fetch_err` to `Page.get_remaining`. -/
theorem get_remaining_fetch_err {T : Type} (c : PageClient T) (fuel : Nat)
    (p : Page T) (req : Request) (code : Nat)
    (hmem : Event.fetch req ∈ (Page.get_remaining c fuel p).2)
    (hf : c.fetch req = .error (.other code)) :
    (Page.get_remaining c fuel p).1 = some (.error (.other code)) := by
  by_cases hn : (p.next).isSome = true
  · have hmem' : Event.fetch req ∈
        (Page.nextLoop c fuel { p with items := [], limit := PAGE_MAX_LIMIT }).2 := by
      simpa [Page.get_remaining, hn] using hmem
    have h1 := nextLoop_fetch_err c fuel
      { p with items := [], limit := PAGE_MAX_LIMIT } req code hmem' hf
    simp [Page.get_remaining, hn, h1]
  · simp [Page.get_remaining, hn] at hmem

/-- Lift of the loop error lemmas to `Page.get_all`. -/
theorem get_all_fetch_err {T : Type} (c : PageClient T) (fuel : Nat)
    (p : Page T) (req : Request) (code : Nat)
    (hmem : Event.fetch req ∈ (Page.get_all c fuel p).2)
    (hf : c.fetch req = .error (.other code)) :
    (Page.get_all c fuel p).1 = some (.error (.other code)) := by
  rcases hPL : Page.prevLoop c fuel { p with items := [], limit := PAGE_MAX_LIMIT }
    with ⟨bres, btr⟩
  have hback : ∀ r, Event.fetch req ∈ btr → bres = r →
      r = some (.error (.other code)) := by
    intro r hmemb hr
    have := prevLoop_fetch_err c fuel
      { p with items := [], limit := PAGE_MAX_LIMIT } req code
      (by rw [hPL]; exact hmemb) hf
    rw [hPL] at this
    rw [← hr]
    exact this
  by_cases hp : (p.previous).isSome = true
  · rcases bres with _ | bres
    · -- backward loop ran out of fuel: the whole call is (none, btr)
      have hmem' : Event.fetch req ∈ btr := by
        simpa [Page.get_all, hp, hPL] using hmem
      have := hback none hmem' rfl
      simp at this
    · rcases bres with e | bi
      · -- backward loop aborted with an error
        have hmem' : Event.fetch req ∈ btr := by
          simpa [Page.get_all, hp, hPL] using hmem
        have := hback (some (.error e)) hmem' rfl
        simp at this
        subst this
        simp [Page.get_all, hp, hPL]
      · -- backward loop finished; the fetch is in the forward phase
        by_cases hn : (p.next).isSome = true
        · have hmem' : Event.fetch req ∈ btr ++
              (Page.nextLoop c fuel { p with items := [], limit := PAGE_MAX_LIMIT }).2 := by
            simpa [Page.get_all, hp, hn, hPL] using hmem
          rcases List.mem_append.mp hmem' with hmb | hmf
          · have := hback (some (.ok bi)) hmb rfl
            simp at this
          · have h1 := nextLoop_fetch_err c fuel
              { p with items := [], limit := PAGE_MAX_LIMIT } req code hmf hf
            simp [Page.get_all, hp, hn, hPL, h1]
        · have hmem' : Event.fetch req ∈ btr := by
            simpa [Page.get_all, hp, hn, hPL] using hmem
          have := hback (some (.ok bi)) hmem' rfl
          simp at this
  · -- no backward phase
    by_cases hn : (p.next).isSome = true
    · have hmem' : Event.fetch req ∈
          (Page.nextLoop c fuel { p with items := [], limit := PAGE_MAX_LIMIT }).2 := by
        simpa [Page.get_all, hp, hn] using hmem
      have h1 := nextLoop_fetch_err c fuel
        { p with items := [], limit := PAGE_MAX_LIMIT } req code hmem' hf
      simp [Page.get_all, hp, hn, h1]
    · simp [Page.get_all, hp, hn] at hmem

/-- Lift of `afterLoop_fetch_err` to `CursorPage.get_remaining`. -/
theorem cursor_get_remaining_fetch_err {T E : Type} (ed : EndpointInstance E)
    (c : CursorClient T) (fuel : Nat) (p : CursorPage T E) (req : Request)
    (code : Nat)
    (hmem : Event.fetch req ∈ (CursorPage.get_remaining ed c fuel p).2)
    (hf : c.fetch req = .error (.other code)) :
    (CursorPage.get_remaining ed c fuel p).1 = some (.error (.other code)) := by
  by_cases hA : CursorPage.hasAfter
      ({ p with items := [], limit := PAGE_MAX_LIMIT } : CursorPage T E) = true
  · have hmem' : Event.fetch req ∈
        (CursorPage.afterLoop ed c fuel
          { p with items := [], limit := PAGE_MAX_LIMIT }).2 := by
      simpa [CursorPage.get_remaining, hA] using hmem
    have h1 := afterLoop_fetch_err ed c fuel
      { p with items := [], limit := PAGE_MAX_LIMIT } req code hmem' hf
    simp [CursorPage.get_remaining, hA, h1]
  · simp [CursorPage.get_remaining, hA] at hmem

/-- Lift of the cursor loop error lemmas to `CursorPage.get_all`. -/
theorem cursor_get_all_fetch_err {T E : Type} (ed : EndpointInstance E)
    (c : CursorClient T) (fuel : Nat) (p : CursorPage T E) (req : Request)
    (code : Nat)
    (hmem : Event.fetch req ∈ (CursorPage.get_all ed c fuel p).2)
    (hf : c.fetch req = .error (.other code)) :
    (CursorPage.get_all ed c fuel p).1 = some (.error (.other code)) := by
  rcases hPL : CursorPage.beforeLoop ed c fuel
      { p with items := [], limit := PAGE_MAX_LIMIT } with ⟨bres, btr⟩
  have hback : ∀ r, Event.fetch req ∈ btr → bres = r →
      r = some (.error (.other code)) := by
    intro r hmemb hr
    have := beforeLoop_fetch_err ed c fuel
      { p with items := [], limit := PAGE_MAX_LIMIT } req code
      (by rw [hPL]; exact hmemb) hf
    rw [hPL] at this
    rw [← hr]
    exact this
  by_cases hB : CursorPage.hasBefore
      ({ p with items := [], limit := PAGE_MAX_LIMIT } : CursorPage T E) = true
  · rcases bres with _ | bres
    · have hmem' : Event.fetch req ∈ btr := by
        simpa [CursorPage.get_all, hB, hPL] using hmem
      have := hback none hmem' rfl
      simp at this
    · rcases bres with e | bi
      · have hmem' : Event.fetch req ∈ btr := by
          simpa [CursorPage.get_all, hB, hPL] using hmem
        have := hback (some (.error e)) hmem' rfl
        simp at this
        subst this
        simp [CursorPage.get_all, hB, hPL]
      · by_cases hA : CursorPage.hasAfter
            ({ p with items := [], limit := PAGE_MAX_LIMIT } : CursorPage T E) = true
        · have hmem' : Event.fetch req ∈ btr ++
              (CursorPage.afterLoop ed c fuel
                { p with items := [], limit := PAGE_MAX_LIMIT }).2 := by
            simpa [CursorPage.get_all, hB, hA, hPL] using hmem
          rcases List.mem_append.mp hmem' with hmb | hmf
          · have := hback (some (.ok bi)) hmb rfl
            simp at this
          · have h1 := afterLoop_fetch_err ed c fuel
              { p with items := [], limit := PAGE_MAX_LIMIT } req code hmf hf
            simp [CursorPage.get_all, hB, hA, hPL, h1]
        · have hmem' : Event.fetch req ∈ btr := by
            simpa [CursorPage.get_all, hB, hA, hPL] using hmem
          have := hback (some (.ok bi)) hmem' rfl
          simp at this
  · by_cases hA : CursorPage.hasAfter
        ({ p with items := [], limit := PAGE_MAX_LIMIT } : CursorPage T E) = true
    · have hmem' : Event.fetch req ∈
          (CursorPage.afterLoop ed c fuel
            { p with items := [], limit := PAGE_MAX_LIMIT }).2 := by
        simpa [CursorPage.get_all, hB, hA] using hmem
      have h1 := afterLoop_fetch_err ed c fuel
        { p with items := [], limit := PAGE_MAX_LIMIT } req code hmem' hf
      simp [CursorPage.get_all, hB, hA, h1]
    · simp [CursorPage.get_all, hB, hA] at hmem

/-- C5: for every aggregation call (`get_remaining` or `get_all`, either
page kind), if some continuation fetch it issued failed with an error other
than `NoRemainingPages`, the call returns exactly that error, and no
partial item list is returned — the result carries the error alone. -/
theorem c5_error_aborts_aggregation :
    (∀ (T : Type) (c : PageClient T) (fuel : Nat) (p : Page T)
        (req : Request) (code : Nat),
      Event.fetch req ∈ (Page.get_remaining c fuel p).2 →
      c.fetch req = .error (.other code) →
      (Page.get_remaining c fuel p).1 = some (.error (.other code))) ∧
    (∀ (T : Type) (c : PageClient T) (fuel : Nat) (p : Page T)
        (req : Request) (code : Nat),
      Event.fetch req ∈ (Page.get_all c fuel p).2 →
      c.fetch req = .error (.other code) →
      (Page.get_all c fuel p).1 = some (.error (.other code))) ∧
    (∀ (T E : Type) (ed : EndpointInstance E) (c : CursorClient T)
        (fuel : Nat) (p : CursorPage T E) (req : Request) (code : Nat),
      Event.fetch req ∈ (CursorPage.get_remaining ed c fuel p).2 →
      c.fetch req = .error (.other code) →
      (CursorPage.get_remaining ed c fuel p).1 =
        some (.error (.other code))) ∧
    (∀ (T E : Type) (ed : EndpointInstance E) (c : CursorClient T)
        (fuel : Nat) (p : CursorPage T E) (req : Request) (code : Nat),
      Event.fetch req ∈ (CursorPage.get_all ed c fuel p).2 →
      c.fetch req = .error (.other code) →
      (CursorPage.get_all ed c fuel p).1 = some (.error (.other code))) :=
  ⟨fun _ c fuel p req code => get_remaining_fetch_err c fuel p req code,
   fun _ c fuel p req code => get_all_fetch_err c fuel p req code,
   fun _ _ ed c fuel p req code =>
     cursor_get_remaining_fetch_err ed c fuel p req code,
   fun _ _ ed c fuel p req code =>
     cursor_get_all_fetch_err ed c fuel p req code⟩

theorem c5_error_aborts_aggregation_witness :
    (Page.get_remaining exClient 2 exP5).1 = some (.error (.other 7)) ∧
    (Page.get_all exClient 2 exP5).1 = some (.error (.other 7)) ∧
    (CursorPage.get_remaining exEndpoint exCClient 2 exQ5).1 =
      some (.error (.other 7)) ∧
    (CursorPage.get_all exEndpoint exCClient 2 exQ5).1 =
      some (.error (.other 7)) :=
  ⟨c5_error_aborts_aggregation.1 Nat exClient 2 exP5
     ⟨"/err", [("limit", "20")]⟩ 7 (by decide) rfl,
   c5_error_aborts_aggregation.2.1 Nat exClient 2 exP5
     ⟨"/err", [("limit", "20")]⟩ 7 (by decide) rfl,
   c5_error_aborts_aggregation.2.2.1 Nat Nat exEndpoint exCClient 2 exQ5
     ⟨"/dflt", [("after", "ay"), ("limit", "20")]⟩ 7 (by decide) rfl,
   c5_error_aborts_aggregation.2.2.2 Nat Nat exEndpoint exCClient 2 exQ5
     ⟨"/dflt", [("after", "ay"), ("limit", "20")]⟩ 7 (by decide) rfl⟩

/-- C2 counterexample: `get_remaining` resets only the initial working
page's limit; once a page is fetched, the next continuation fetch carries
the *fetched* page's limit field.  Here the environment returns a middle
page with limit 20, so the second continuation fetch carries
`limit=20`, not `limit=50` — refuting the claim that every continuation
fetch carries the API maximum. -/
theorem c2_counterexample :
    Page.get_remaining exClient 3 exP0 =
      (some (.ok [some 1, some 2, some 3]),
       [Event.fetch ⟨"/n0", [("limit", "50")]⟩, Event.sleep,
        Event.fetch ⟨"/n1", [("limit", "20")]⟩, Event.sleep]) ∧
    Event.fetch ⟨"/n1", [("limit", "20")]⟩ ∈
      (Page.get_remaining exClient 3 exP0).2 ∧
    ("limit", toString PAGE_MAX_LIMIT) ∉
      ([("limit", "20")] : List (String × String)) := by
  refine ⟨by rfl, by decide, by decide⟩

/-- The first event of a (fueled) forward loop entered with a `next` link
is the continuation fetch for that link. -/
theorem nextLoop_trace_head {T : Type} (c : PageClient T) (k : Nat)
    (p : Page T) (n : String) (h : p.next = some n) :
    ∃ tr, (Page.nextLoop c (k + 1) p).2 =
      Event.fetch ⟨stripApiUrl c.apiUrl n, [("limit", toString p.limit)]⟩ :: tr := by
  rcases hfr : c.fetch ⟨stripApiUrl c.apiUrl n, [("limit", toString p.limit)]⟩
    with e | p'
  · rcases e with _ | code
    · exact ⟨[], by rw [nextLoop_nrp c k p n h hfr]⟩
    · exact ⟨[], by rw [nextLoop_err c k p n code h hfr]⟩
  · exact ⟨Event.sleep :: (Page.nextLoop c k { p' with items := [] }).2,
      by rw [nextLoop_ok c k p p' n h hfr]⟩

/-- Backward analogue of `nextLoop_trace_head`. -/
theorem prevLoop_trace_head {T : Type} (c : PageClient T) (k : Nat)
    (p : Page T) (u : String) (h : p.previous = some u) :
    ∃ tr, (Page.prevLoop c (k + 1) p).2 =
      Event.fetch ⟨stripApiUrl c.apiUrl u, [("limit", toString p.limit)]⟩ :: tr := by
  rcases hfr : c.fetch ⟨stripApiUrl c.apiUrl u, [("limit", toString p.limit)]⟩
    with e | p'
  · rcases e with _ | code
    · exact ⟨[], by rw [prevLoop_nrp c k p u h hfr]⟩
    · exact ⟨[], by rw [prevLoop_err c k p u code h hfr]⟩
  · exact ⟨Event.sleep :: (Page.prevLoop c k { p' with items := [] }).2,
      by rw [prevLoop_ok c k p p' u h hfr]⟩

/-- With a `next` link present, `get_remaining` reports the forward loop's
trace unchanged. -/
theorem get_remaining_trace {T : Type} (c : PageClient T) (fuel : Nat)
    (p : Page T) (hn : p.next.isSome = true) :
    (Page.get_remaining c fuel p).2 =
      (Page.nextLoop c fuel { p with items := [], limit := PAGE_MAX_LIMIT }).2 := by
  simp [Page.get_remaining, hn]

/-- With a `previous` link present, the trace of `get_all` extends the
backward loop's trace. -/
theorem get_all_trace_split {T : Type} (c : PageClient T) (fuel : Nat)
    (p : Page T) (hp : p.previous.isSome = true) :
    ∃ rest, (Page.get_all c fuel p).2 =
      (Page.prevLoop c fuel
        { p with items := [], limit := PAGE_MAX_LIMIT }).2 ++ rest := by
  rcases hPL : Page.prevLoop c fuel { p with items := [], limit := PAGE_MAX_LIMIT }
    with ⟨bres, btr⟩
  rcases bres with _ | bres
  · exact ⟨[], by simp [Page.get_all, hp, hPL]⟩
  · rcases bres with e | bi
    · exact ⟨[], by simp [Page.get_all, hp, hPL]⟩
    · by_cases hn : p.next.isSome = true
      · exact ⟨(Page.nextLoop c fuel
          { p with items := [], limit := PAGE_MAX_LIMIT }).2,
          by simp [Page.get_all, hp, hn, hPL]⟩
      · exact ⟨[], by simp [Page.get_all, hp, hn, hPL]⟩

/-- Cursor analogue of `nextLoop_trace_head`, for `afterLoop`. -/
theorem afterLoop_trace_head {T E : Type} (ed : EndpointInstance E)
    (c : CursorClient T) (k : Nat) (p : CursorPage T E) (cs : Cursor)
    (a : String) (hc : p.cursors = some cs) (ha : cs.after = some a) :
    ∃ tr, (CursorPage.afterLoop ed c (k + 1) p).2 =
      Event.fetch ⟨ed.endpoint_url p.endpoint,
        [("after", a), ("limit", toString p.limit)]⟩ :: tr := by
  rcases hfr : c.fetch ⟨ed.endpoint_url p.endpoint,
      [("after", a), ("limit", toString p.limit)]⟩ with e | d
  · rcases e with _ | code
    · exact ⟨[], by rw [afterLoop_nrp ed c k p cs a hc ha hfr]⟩
    · exact ⟨[], by rw [afterLoop_err ed c k p cs a code hc ha hfr]⟩
  · exact ⟨Event.sleep :: (CursorPage.afterLoop ed c k
      { d.toPage ed.default with items := [] }).2,
      by rw [afterLoop_ok ed c k p d cs a hc ha hfr]⟩

/-- Cursor analogue of `prevLoop_trace_head`, for `beforeLoop`. -/
theorem beforeLoop_trace_head {T E : Type} (ed : EndpointInstance E)
    (c : CursorClient T) (k : Nat) (p : CursorPage T E) (cs : Cursor)
    (b : String) (hc : p.cursors = some cs) (hb : cs.before = some b) :
    ∃ tr, (CursorPage.beforeLoop ed c (k + 1) p).2 =
      Event.fetch ⟨ed.endpoint_url p.endpoint,
        [("before", b), ("limit", toString p.limit)]⟩ :: tr := by
  rcases hfr : c.fetch ⟨ed.endpoint_url p.endpoint,
      [("before", b), ("limit", toString p.limit)]⟩ with e | d
  · rcases e with _ | code
    · exact ⟨[], by rw [beforeLoop_nrp ed c k p cs b hc hb hfr]⟩
    · exact ⟨[], by rw [beforeLoop_err ed c k p cs b code hc hb hfr]⟩
  · exact ⟨Event.sleep :: (CursorPage.beforeLoop ed c k
      { d.toPage ed.default with items := [] }).2,
      by rw [beforeLoop_ok ed c k p d cs b hc hb hfr]⟩

/-- With an `after` token present, `CursorPage.get_remaining` reports the
forward loop's trace unchanged. -/
theorem cursor_get_remaining_trace {T E : Type} (ed : EndpointInstance E)
    (c : CursorClient T) (fuel : Nat) (p : CursorPage T E)
    (hA : CursorPage.hasAfter
      ({ p with items := [], limit := PAGE_MAX_LIMIT } : CursorPage T E) = true) :
    (CursorPage.get_remaining ed c fuel p).2 =
      (CursorPage.afterLoop ed c fuel
        { p with items := [], limit := PAGE_MAX_LIMIT }).2 := by
  simp [CursorPage.get_remaining, hA]

/-- With a `before` token present, the trace of `CursorPage.get_all`
extends the backward loop's trace. -/
theorem cursor_get_all_trace_split {T E : Type} (ed : EndpointInstance E)
    (c : CursorClient T) (fuel : Nat) (p : CursorPage T E)
    (hB : CursorPage.hasBefore
      ({ p with items := [], limit := PAGE_MAX_LIMIT } : CursorPage T E) = true) :
    ∃ rest, (CursorPage.get_all ed c fuel p).2 =
      (CursorPage.beforeLoop ed c fuel
        { p with items := [], limit := PAGE_MAX_LIMIT }).2 ++ rest := by
  rcases hPL : CursorPage.beforeLoop ed c fuel
      { p with items := [], limit := PAGE_MAX_LIMIT } with ⟨bres, btr⟩
  rcases bres with _ | bres
  · exact ⟨[], by simp [CursorPage.get_all, hB, hPL]⟩
  · rcases bres with e | bi
    · exact ⟨[], by simp [CursorPage.get_all, hB, hPL]⟩
    · by_cases hA : CursorPage.hasAfter
          ({ p with items := [], limit := PAGE_MAX_LIMIT } : CursorPage T E) = true
      · exact ⟨(CursorPage.afterLoop ed c fuel
          { p with items := [], limit := PAGE_MAX_LIMIT }).2,
          by simp [CursorPage.get_all, hB, hA, hPL]⟩
      · exact ⟨[], by simp [CursorPage.get_all, hB, hA, hPL]⟩

theorem traceRequests_nil : traceRequests [] = [] := rfl

theorem traceRequests_cons_fetch (r : Request) (tr : List Event) :
    traceRequests (Event.fetch r :: tr) = r :: traceRequests tr := by
  simp [traceRequests]

theorem traceRequests_cons_sleep (tr : List Event) :
    traceRequests (Event.sleep :: tr) = traceRequests tr := by
  simp [traceRequests]

/-- Limit discipline of the forward loop: the first fetch it issues carries
the entry working page's limit, and each later fetch carries the limit
field of the page returned by the fetch immediately before it. -/
theorem nextLoop_limits {T : Type} (c : PageClient T) :
    ∀ (fuel : Nat) (p : Page T),
      (∀ r, (traceRequests (Page.nextLoop c fuel p).2).head? = some r →
        ("limit", toString p.limit) ∈ r.query) ∧
      List.Chain' (fun r r2 => ∃ p2, c.fetch r = .ok p2 ∧
          ("limit", toString p2.limit) ∈ r2.query)
        (traceRequests (Page.nextLoop c fuel p).2) := by
  intro fuel
  induction fuel with
  | zero =>
    intro p
    refine ⟨?_, ?_⟩
    · intro r hr
      simp [Page.nextLoop, traceRequests] at hr
    · simp [Page.nextLoop, traceRequests]
  | succ m ih =>
    intro p
    rcases hn : p.next with _ | nx
    · rw [nextLoop_brk c m p hn]
      refine ⟨?_, ?_⟩
      · intro r hr
        simp [traceRequests] at hr
      · simp [traceRequests]
    · rcases hfr : c.fetch ⟨stripApiUrl c.apiUrl nx,
          [("limit", toString p.limit)]⟩ with e | p2
      · rcases e with _ | code
        · rw [nextLoop_nrp c m p nx hn hfr]
          refine ⟨?_, ?_⟩
          · intro r hr
            rw [traceRequests_cons_fetch, traceRequests_nil] at hr
            simp at hr
            subst hr
            simp
          · rw [traceRequests_cons_fetch, traceRequests_nil]
            exact List.chain'_singleton _
        · rw [nextLoop_err c m p nx code hn hfr]
          refine ⟨?_, ?_⟩
          · intro r hr
            rw [traceRequests_cons_fetch, traceRequests_nil] at hr
            simp at hr
            subst hr
            simp
          · rw [traceRequests_cons_fetch, traceRequests_nil]
            exact List.chain'_singleton _
      · rw [nextLoop_ok c m p p2 nx hn hfr]
        have ihp := ih { p2 with items := [] }
        refine ⟨?_, ?_⟩
        · intro r hr
          rw [traceRequests_cons_fetch, traceRequests_cons_sleep] at hr
          simp at hr
          subst hr
          simp
        · rw [traceRequests_cons_fetch, traceRequests_cons_sleep]
          refine List.chain'_cons'.mpr ⟨?_, ihp.2⟩
          intro b hb
          refine ⟨p2, hfr, ?_⟩
          have := ihp.1 b (by simpa using hb)
          simpa using this

/-- Limit discipline of the backward loop, mirror of `nextLoop_limits`. -/
theorem prevLoop_limits {T : Type} (c : PageClient T) :
    ∀ (fuel : Nat) (p : Page T),
      (∀ r, (traceRequests (Page.prevLoop c fuel p).2).head? = some r →
        ("limit", toString p.limit) ∈ r.query) ∧
      List.Chain' (fun r r2 => ∃ p2, c.fetch r = .ok p2 ∧
          ("limit", toString p2.limit) ∈ r2.query)
        (traceRequests (Page.prevLoop c fuel p).2) := by
  intro fuel
  induction fuel with
  | zero =>
    intro p
    refine ⟨?_, ?_⟩
    · intro r hr
      simp [Page.prevLoop, traceRequests] at hr
    · simp [Page.prevLoop, traceRequests]
  | succ m ih =>
    intro p
    rcases hu : p.previous with _ | ux
    · rw [prevLoop_brk c m p hu]
      refine ⟨?_, ?_⟩
      · intro r hr
        simp [traceRequests] at hr
      · simp [traceRequests]
    · rcases hfr : c.fetch ⟨stripApiUrl c.apiUrl ux,
          [("limit", toString p.limit)]⟩ with e | p2
      · rcases e with _ | code
        · rw [prevLoop_nrp c m p ux hu hfr]
          refine ⟨?_, ?_⟩
          · intro r hr
            rw [traceRequests_cons_fetch, traceRequests_nil] at hr
            simp at hr
            subst hr
            simp
          · rw [traceRequests_cons_fetch, traceRequests_nil]
            exact List.chain'_singleton _
        · rw [prevLoop_err c m p ux code hu hfr]
          refine ⟨?_, ?_⟩
          · intro r hr
            rw [traceRequests_cons_fetch, traceRequests_nil] at hr
            simp at hr
            subst hr
            simp
          · rw [traceRequests_cons_fetch, traceRequests_nil]
            exact List.chain'_singleton _
      · rw [prevLoop_ok c m p p2 ux hu hfr]
        have ihp := ih { p2 with items := [] }
        refine ⟨?_, ?_⟩
        · intro r hr
          rw [traceRequests_cons_fetch, traceRequests_cons_sleep] at hr
          simp at hr
          subst hr
          simp
        · rw [traceRequests_cons_fetch, traceRequests_cons_sleep]
          refine List.chain'_cons'.mpr ⟨?_, ihp.2⟩
          intro b hb
          refine ⟨p2, hfr, ?_⟩
          have := ihp.1 b (by simpa using hb)
          simpa using this

/-- Limit discipline of the cursor forward loop (`get_after` steps). -/
theorem afterLoop_limits {T E : Type} (ed : EndpointInstance E)
    (c : CursorClient T) :
    ∀ (fuel : Nat) (p : CursorPage T E),
      (∀ r, (traceRequests (CursorPage.afterLoop ed c fuel p).2).head? =
          some r → ("limit", toString p.limit) ∈ r.query) ∧
      List.Chain' (fun r r2 => ∃ d, c.fetch r = .ok d ∧
          ("limit", toString d.limit) ∈ r2.query)
        (traceRequests (CursorPage.afterLoop ed c fuel p).2) := by
  intro fuel
  induction fuel with
  | zero =>
    intro p
    refine ⟨?_, ?_⟩
    · intro r hr
      simp [CursorPage.afterLoop, traceRequests] at hr
    · simp [CursorPage.afterLoop, traceRequests]
  | succ m ih =>
    intro p
    rcases hc : p.cursors with _ | cs
    · rw [afterLoop_none ed c m p hc]
      refine ⟨?_, ?_⟩
      · intro r hr
        simp [traceRequests] at hr
      · simp [traceRequests]
    · rcases ha : cs.after with _ | a
      · rw [afterLoop_noTok ed c m p cs hc ha]
        refine ⟨?_, ?_⟩
        · intro r hr
          simp [traceRequests] at hr
        · simp [traceRequests]
      · rcases hfr : c.fetch ⟨ed.endpoint_url p.endpoint,
            [("after", a), ("limit", toString p.limit)]⟩ with e | d
        · rcases e with _ | code
          · rw [afterLoop_nrp ed c m p cs a hc ha hfr]
            refine ⟨?_, ?_⟩
            · intro r hr
              rw [traceRequests_cons_fetch, traceRequests_nil] at hr
              simp at hr
              subst hr
              simp
            · rw [traceRequests_cons_fetch, traceRequests_nil]
              exact List.chain'_singleton _
          · rw [afterLoop_err ed c m p cs a code hc ha hfr]
            refine ⟨?_, ?_⟩
            · intro r hr
              rw [traceRequests_cons_fetch, traceRequests_nil] at hr
              simp at hr
              subst hr
              simp
            · rw [traceRequests_cons_fetch, traceRequests_nil]
              exact List.chain'_singleton _
        · rw [afterLoop_ok ed c m p d cs a hc ha hfr]
          have ihp := ih { d.toPage ed.default with items := [] }
          refine ⟨?_, ?_⟩
          · intro r hr
            rw [traceRequests_cons_fetch, traceRequests_cons_sleep] at hr
            simp at hr
            subst hr
            simp
          · rw [traceRequests_cons_fetch, traceRequests_cons_sleep]
            refine List.chain'_cons'.mpr ⟨?_, ihp.2⟩
            intro b hb
            refine ⟨d, hfr, ?_⟩
            have := ihp.1 b (by simpa using hb)
            simpa [CursorPageData.toPage] using this

/-- Limit discipline of the cursor backward loop (`get_before` steps). -/
theorem beforeLoop_limits {T E : Type} (ed : EndpointInstance E)
    (c : CursorClient T) :
    ∀ (fuel : Nat) (p : CursorPage T E),
      (∀ r, (traceRequests (CursorPage.beforeLoop ed c fuel p).2).head? =
          some r → ("limit", toString p.limit) ∈ r.query) ∧
      List.Chain' (fun r r2 => ∃ d, c.fetch r = .ok d ∧
          ("limit", toString d.limit) ∈ r2.query)
        (traceRequests (CursorPage.beforeLoop ed c fuel p).2) := by
  intro fuel
  induction fuel with
  | zero =>
    intro p
    refine ⟨?_, ?_⟩
    · intro r hr
      simp [CursorPage.beforeLoop, traceRequests] at hr
    · simp [CursorPage.beforeLoop, traceRequests]
  | succ m ih =>
    intro p
    rcases hc : p.cursors with _ | cs
    · rw [beforeLoop_none ed c m p hc]
      refine ⟨?_, ?_⟩
      · intro r hr
        simp [traceRequests] at hr
      · simp [traceRequests]
    · rcases hb : cs.before with _ | b
      · rw [beforeLoop_noTok ed c m p cs hc hb]
        refine ⟨?_, ?_⟩
        · intro r hr
          simp [traceRequests] at hr
        · simp [traceRequests]
      · rcases hfr : c.fetch ⟨ed.endpoint_url p.endpoint,
            [("before", b), ("limit", toString p.limit)]⟩ with e | d
        · rcases e with _ | code
          · rw [beforeLoop_nrp ed c m p cs b hc hb hfr]
            refine ⟨?_, ?_⟩
            · intro r hr
              rw [traceRequests_cons_fetch, traceRequests_nil] at hr
              simp at hr
              subst hr
              simp
            · rw [traceRequests_cons_fetch, traceRequests_nil]
              exact List.chain'_singleton _
          · rw [beforeLoop_err ed c m p cs b code hc hb hfr]
            refine ⟨?_, ?_⟩
            · intro r hr
              rw [traceRequests_cons_fetch, traceRequests_nil] at hr
              simp at hr
              subst hr
              simp
            · rw [traceRequests_cons_fetch, traceRequests_nil]
              exact List.chain'_singleton _
        · rw [beforeLoop_ok ed c m p d cs b hc hb hfr]
          have ihp := ih { d.toPage ed.default with items := [] }
          refine ⟨?_, ?_⟩
          · intro r hr
            rw [traceRequests_cons_fetch, traceRequests_cons_sleep] at hr
            simp at hr
            subst hr
            simp
          · rw [traceRequests_cons_fetch, traceRequests_cons_sleep]
            refine List.chain'_cons'.mpr ⟨?_, ihp.2⟩
            intro b2 hb2
            refine ⟨d, hfr, ?_⟩
            have := ihp.1 b2 (by simpa using hb2)
            simpa [CursorPageData.toPage] using this

/-- C2 (amended): during any aggregation call (`get_remaining` or
`get_all`, either page kind), the first continuation fetch issued in each
direction carries the query parameter `limit = PAGE_MAX_LIMIT` (50),
regardless of the initial page's original limit, and each later
continuation fetch in that direction carries the `limit` field of the most
recently fetched page (every two consecutive fetches are linked by the
page the earlier fetch returned).  For `get_all` the trace splits into a
backward phase followed by a forward phase, each satisfying both
properties. -/
theorem c2_amended_first_fetch_max_limit :
    (∀ (T : Type) (c : PageClient T) (fuel : Nat) (p : Page T),
      (∀ r, (traceRequests (Page.get_remaining c fuel p).2).head? = some r →
        ("limit", toString PAGE_MAX_LIMIT) ∈ r.query) ∧
      List.Chain' (fun r r2 => ∃ p2, c.fetch r = .ok p2 ∧
          ("limit", toString p2.limit) ∈ r2.query)
        (traceRequests (Page.get_remaining c fuel p).2)) ∧
    (∀ (T : Type) (c : PageClient T) (fuel : Nat) (p : Page T),
      ∃ btr ftr, (Page.get_all c fuel p).2 = btr ++ ftr ∧
        ((∀ r, (traceRequests btr).head? = some r →
            ("limit", toString PAGE_MAX_LIMIT) ∈ r.query) ∧
         List.Chain' (fun r r2 => ∃ p2, c.fetch r = .ok p2 ∧
             ("limit", toString p2.limit) ∈ r2.query) (traceRequests btr)) ∧
        ((∀ r, (traceRequests ftr).head? = some r →
            ("limit", toString PAGE_MAX_LIMIT) ∈ r.query) ∧
         List.Chain' (fun r r2 => ∃ p2, c.fetch r = .ok p2 ∧
             ("limit", toString p2.limit) ∈ r2.query) (traceRequests ftr))) ∧
    (∀ (T E : Type) (ed : EndpointInstance E) (c : CursorClient T)
        (fuel : Nat) (p : CursorPage T E),
      (∀ r, (traceRequests (CursorPage.get_remaining ed c fuel p).2).head? =
          some r → ("limit", toString PAGE_MAX_LIMIT) ∈ r.query) ∧
      List.Chain' (fun r r2 => ∃ d, c.fetch r = .ok d ∧
          ("limit", toString d.limit) ∈ r2.query)
        (traceRequests (CursorPage.get_remaining ed c fuel p).2)) ∧
    (∀ (T E : Type) (ed : EndpointInstance E) (c : CursorClient T)
        (fuel : Nat) (p : CursorPage T E),
      ∃ btr ftr, (CursorPage.get_all ed c fuel p).2 = btr ++ ftr ∧
        ((∀ r, (traceRequests btr).head? = some r →
            ("limit", toString PAGE_MAX_LIMIT) ∈ r.query) ∧
         List.Chain' (fun r r2 => ∃ d, c.fetch r = .ok d ∧
             ("limit", toString d.limit) ∈ r2.query) (traceRequests btr)) ∧
        ((∀ r, (traceRequests ftr).head? = some r →
            ("limit", toString PAGE_MAX_LIMIT) ∈ r.query) ∧
         List.Chain' (fun r r2 => ∃ d, c.fetch r = .ok d ∧
             ("limit", toString d.limit) ∈ r2.query) (traceRequests ftr))) := by
  refine ⟨?_, ?_, ?_, ?_⟩
  · intro T c fuel p
    by_cases hn : (p.next).isSome = true
    · have hl := nextLoop_limits c fuel { p with items := [], limit := PAGE_MAX_LIMIT }
      rw [get_remaining_trace c fuel p hn]
      refine ⟨?_, hl.2⟩
      intro r hr
      have := hl.1 r hr
      simpa using this
    · refine ⟨?_, ?_⟩
      · intro r hr
        simp [Page.get_remaining, hn, traceRequests] at hr
      · simp [Page.get_remaining, hn, traceRequests]
  · intro T c fuel p
    have hempty : (∀ r, (traceRequests ([] : List Event)).head? = some r →
        ("limit", toString PAGE_MAX_LIMIT) ∈ r.query) ∧
        List.Chain' (fun r r2 => ∃ p2, c.fetch r = .ok p2 ∧
          ("limit", toString p2.limit) ∈ r2.query)
          (traceRequests ([] : List Event)) := by
      refine ⟨?_, ?_⟩
      · intro r hr
        simp [traceRequests] at hr
      · simp [traceRequests]
    have hB := prevLoop_limits c fuel { p with items := [], limit := PAGE_MAX_LIMIT }
    have hB1 : ∀ r, (traceRequests
        (Page.prevLoop c fuel { p with items := [], limit := PAGE_MAX_LIMIT }).2).head? =
        some r → ("limit", toString PAGE_MAX_LIMIT) ∈ r.query := by
      intro r hr
      have := hB.1 r hr
      simpa using this
    have hF := nextLoop_limits c fuel { p with items := [], limit := PAGE_MAX_LIMIT }
    have hF1 : ∀ r, (traceRequests
        (Page.nextLoop c fuel { p with items := [], limit := PAGE_MAX_LIMIT }).2).head? =
        some r → ("limit", toString PAGE_MAX_LIMIT) ∈ r.query := by
      intro r hr
      have := hF.1 r hr
      simpa using this
    by_cases hp : (p.previous).isSome = true
    · rcases hPL : Page.prevLoop c fuel { p with items := [], limit := PAGE_MAX_LIMIT }
        with ⟨bres, btr⟩
      rw [hPL] at hB1 hB
      rcases bres with _ | bres
      · exact ⟨btr, [], by simp [Page.get_all, hp, hPL], ⟨hB1, hB.2⟩, hempty⟩
      · rcases bres with e | bi
        · exact ⟨btr, [], by simp [Page.get_all, hp, hPL], ⟨hB1, hB.2⟩, hempty⟩
        · by_cases hn : (p.next).isSome = true
          · exact ⟨btr,
              (Page.nextLoop c fuel { p with items := [], limit := PAGE_MAX_LIMIT }).2,
              by simp [Page.get_all, hp, hn, hPL], ⟨hB1, hB.2⟩, hF1, hF.2⟩
          · exact ⟨btr, [], by simp [Page.get_all, hp, hn, hPL], ⟨hB1, hB.2⟩, hempty⟩
    · by_cases hn : (p.next).isSome = true
      · exact ⟨[],
          (Page.nextLoop c fuel { p with items := [], limit := PAGE_MAX_LIMIT }).2,
          by simp [Page.get_all, hp, hn], hempty, hF1, hF.2⟩
      · exact ⟨[], [], by simp [Page.get_all, hp, hn], hempty, hempty⟩
  · intro T E ed c fuel p
    by_cases hA : CursorPage.hasAfter
        ({ p with items := [], limit := PAGE_MAX_LIMIT } : CursorPage T E) = true
    · have hl := afterLoop_limits ed c fuel
        { p with items := [], limit := PAGE_MAX_LIMIT }
      rw [cursor_get_remaining_trace ed c fuel p hA]
      refine ⟨?_, hl.2⟩
      intro r hr
      have := hl.1 r hr
      simpa using this
    · refine ⟨?_, ?_⟩
      · intro r hr
        simp [CursorPage.get_remaining, hA, traceRequests] at hr
      · simp [CursorPage.get_remaining, hA, traceRequests]
  · intro T E ed c fuel p
    have hempty : (∀ r, (traceRequests ([] : List Event)).head? = some r →
        ("limit", toString PAGE_MAX_LIMIT) ∈ r.query) ∧
        List.Chain' (fun r r2 => ∃ d, c.fetch r = .ok d ∧
          ("limit", toString d.limit) ∈ r2.query)
          (traceRequests ([] : List Event)) := by
      refine ⟨?_, ?_⟩
      · intro r hr
        simp [traceRequests] at hr
      · simp [traceRequests]
    have hB := beforeLoop_limits ed c fuel
      { p with items := [], limit := PAGE_MAX_LIMIT }
    have hB1 : ∀ r, (traceRequests
        (CursorPage.beforeLoop ed c fuel
          { p with items := [], limit := PAGE_MAX_LIMIT }).2).head? =
        some r → ("limit", toString PAGE_MAX_LIMIT) ∈ r.query := by
      intro r hr
      have := hB.1 r hr
      simpa using this
    have hF := afterLoop_limits ed c fuel
      { p with items := [], limit := PAGE_MAX_LIMIT }
    have hF1 : ∀ r, (traceRequests
        (CursorPage.afterLoop ed c fuel
          { p with items := [], limit := PAGE_MAX_LIMIT }).2).head? =
        some r → ("limit", toString PAGE_MAX_LIMIT) ∈ r.query := by
      intro r hr
      have := hF.1 r hr
      simpa using this
    by_cases hBc : CursorPage.hasBefore
        ({ p with items := [], limit := PAGE_MAX_LIMIT } : CursorPage T E) = true
    · rcases hPL : CursorPage.beforeLoop ed c fuel
          { p with items := [], limit := PAGE_MAX_LIMIT } with ⟨bres, btr⟩
      rw [hPL] at hB1 hB
      rcases bres with _ | bres
      · exact ⟨btr, [], by simp [CursorPage.get_all, hBc, hPL],
          ⟨hB1, hB.2⟩, hempty⟩
      · rcases bres with e | bi
        · exact ⟨btr, [], by simp [CursorPage.get_all, hBc, hPL],
            ⟨hB1, hB.2⟩, hempty⟩
        · by_cases hA : CursorPage.hasAfter
              ({ p with items := [], limit := PAGE_MAX_LIMIT } : CursorPage T E) = true
          · exact ⟨btr,
              (CursorPage.afterLoop ed c fuel
                { p with items := [], limit := PAGE_MAX_LIMIT }).2,
              by simp [CursorPage.get_all, hBc, hA, hPL], ⟨hB1, hB.2⟩, hF1, hF.2⟩
          · exact ⟨btr, [], by simp [CursorPage.get_all, hBc, hA, hPL],
              ⟨hB1, hB.2⟩, hempty⟩
    · by_cases hA : CursorPage.hasAfter
          ({ p with items := [], limit := PAGE_MAX_LIMIT } : CursorPage T E) = true
      · exact ⟨[],
          (CursorPage.afterLoop ed c fuel
            { p with items := [], limit := PAGE_MAX_LIMIT }).2,
          by simp [CursorPage.get_all, hBc, hA], hempty, hF1, hF.2⟩
      · exact ⟨[], [], by simp [CursorPage.get_all, hBc, hA], hempty, hempty⟩

theorem c2_amended_first_fetch_max_limit_witness :
    ("limit", toString PAGE_MAX_LIMIT) ∈
      (Request.mk "/n0" [("limit", "50")]).query ∧
    ("limit", toString PAGE_MAX_LIMIT) ∈
      (Request.mk "/orig" [("after", "a0"), ("limit", "50")]).query :=
  ⟨(c2_amended_first_fetch_max_limit.1 Nat exClient 3 exP0).1
      ⟨"/n0", [("limit", "50")]⟩ (by decide),
   (c2_amended_first_fetch_max_limit.2.2.1 Nat Nat exEndpoint exCClient 2 exQ0).1
      ⟨"/orig", [("after", "a0"), ("limit", "50")]⟩ (by decide)⟩

/-- C1 counterexample: in the chain P(-1) ← P0 → P1 below (with
P(-1).previous = None, P1.next = None and all fetches succeeding),
`get_all` starts its accumulator with P0's own items and *appends* the
backward page's items after them, returning
P0.items ++ P(-1).items ++ P1.items = `[some 1, some 10, some 3]` — not
the claimed P(-1).items ++ P0.items ++ P1.items = `[some 10, some 1, some 3]`. -/
theorem c1_counterexample :
    exClient.fetch ⟨"/p", [("limit", "50")]⟩ = .ok exPm1 ∧
    exPm1.previous = none ∧
    exClient.fetch ⟨"/n", [("limit", "50")]⟩ = .ok exP2 ∧
    exP2.next = none ∧
    Page.get_all exClient 2 exPall0 =
      (some (.ok [some 1, some 10, some 3]),
       [Event.fetch ⟨"/p", [("limit", "50")]⟩, Event.sleep,
        Event.fetch ⟨"/n", [("limit", "50")]⟩, Event.sleep]) ∧
    exPm1.items ++ exPall0.items ++ exP2.items = [some 10, some 1, some 3] ∧
    ([some 1, some 10, some 3] : List (Option Nat)) ≠
      [some 10, some 1, some 3] := by
  refine ⟨rfl, rfl, rfl, rfl, by rfl, rfl, by decide⟩

/-- C1 (amended): for a chain P(-1) ← P0 → P1 (P(-1).previous = None,
P1.next = None) where all fetches succeed, `get_all` on P0 returns the
items in the order: P0's own items first, then the backward-collected items
(P(-1).items), then the forward-collected items (P1.items); analogously
for `CursorPage::get_all`. -/
theorem c1_get_all_order :
    (∀ (T : Type) (c : PageClient T) (p0 pm1 p1 : Page T) (u n : String)
        (k : Nat),
      p0.previous = some u → p0.next = some n →
      c.fetch ⟨stripApiUrl c.apiUrl u,
        [("limit", toString PAGE_MAX_LIMIT)]⟩ = .ok pm1 →
      pm1.previous = none →
      c.fetch ⟨stripApiUrl c.apiUrl n,
        [("limit", toString PAGE_MAX_LIMIT)]⟩ = .ok p1 →
      p1.next = none →
      Page.get_all c (k + 2) p0 =
        (some (.ok (p0.items ++ pm1.items ++ p1.items)),
         [Event.fetch ⟨stripApiUrl c.apiUrl u,
            [("limit", toString PAGE_MAX_LIMIT)]⟩, Event.sleep,
          Event.fetch ⟨stripApiUrl c.apiUrl n,
            [("limit", toString PAGE_MAX_LIMIT)]⟩, Event.sleep])) ∧
    (∀ (T E : Type) (ed : EndpointInstance E) (c : CursorClient T)
        (q0 : CursorPage T E) (dm1 d1 : CursorPageData T) (cs : Cursor)
        (bt af : String) (k : Nat),
      q0.cursors = some cs → cs.before = some bt → cs.after = some af →
      c.fetch ⟨ed.endpoint_url q0.endpoint,
        [("before", bt), ("limit", toString PAGE_MAX_LIMIT)]⟩ = .ok dm1 →
      dm1.cursors = none →
      c.fetch ⟨ed.endpoint_url q0.endpoint,
        [("after", af), ("limit", toString PAGE_MAX_LIMIT)]⟩ = .ok d1 →
      d1.cursors = none →
      CursorPage.get_all ed c (k + 2) q0 =
        (some (.ok (q0.items ++ dm1.items ++ d1.items)),
         [Event.fetch ⟨ed.endpoint_url q0.endpoint,
            [("before", bt), ("limit", toString PAGE_MAX_LIMIT)]⟩, Event.sleep,
          Event.fetch ⟨ed.endpoint_url q0.endpoint,
            [("after", af), ("limit", toString PAGE_MAX_LIMIT)]⟩,
          Event.sleep])) := by
  constructor
  · intro T c p0 pm1 p1 u n k hu hn hfu hpm hfn hp1
    have eb : Page.prevLoop c (k + 2)
        { p0 with items := [], limit := PAGE_MAX_LIMIT } =
        (some (.ok (pm1.items ++ [])),
         [Event.fetch ⟨stripApiUrl c.apiUrl u,
           [("limit", toString PAGE_MAX_LIMIT)]⟩, Event.sleep]) := by
      have h1 := prevLoop_ok c (k + 1)
        { p0 with items := [], limit := PAGE_MAX_LIMIT } pm1 u
        (by simp [hu]) (by simpa using hfu)
      rw [show k + 1 + 1 = k + 2 from rfl] at h1
      rw [h1, prevLoop_brk c k { pm1 with items := [] } (by simp [hpm])]
      simp
    have ef : Page.nextLoop c (k + 2)
        { p0 with items := [], limit := PAGE_MAX_LIMIT } =
        (some (.ok (p1.items ++ [])),
         [Event.fetch ⟨stripApiUrl c.apiUrl n,
           [("limit", toString PAGE_MAX_LIMIT)]⟩, Event.sleep]) := by
      have h1 := nextLoop_ok c (k + 1)
        { p0 with items := [], limit := PAGE_MAX_LIMIT } p1 n
        (by simp [hn]) (by simpa using hfn)
      rw [show k + 1 + 1 = k + 2 from rfl] at h1
      rw [h1, nextLoop_brk c k { p1 with items := [] } (by simp [hp1])]
      simp
    rw [hu, hn] at eb ef
    simp [Page.get_all, hu, hn, eb, ef]
  · intro T E ed c q0 dm1 d1 cs bt af k hc hbt haf hfb hdm hfa hd1
    have eb : CursorPage.beforeLoop ed c (k + 2)
        { q0 with items := [], limit := PAGE_MAX_LIMIT } =
        (some (.ok (dm1.items ++ [])),
         [Event.fetch ⟨ed.endpoint_url q0.endpoint,
           [("before", bt), ("limit", toString PAGE_MAX_LIMIT)]⟩,
          Event.sleep]) := by
      have h1 := beforeLoop_ok ed c (k + 1)
        { q0 with items := [], limit := PAGE_MAX_LIMIT } dm1 cs bt
        (by simp [hc]) hbt (by simpa using hfb)
      rw [show k + 1 + 1 = k + 2 from rfl] at h1
      rw [h1, beforeLoop_none ed c k
        { dm1.toPage ed.default with items := [] }
        (by simp [CursorPageData.toPage, hdm])]
      simp
    have ef : CursorPage.afterLoop ed c (k + 2)
        { q0 with items := [], limit := PAGE_MAX_LIMIT } =
        (some (.ok (d1.items ++ [])),
         [Event.fetch ⟨ed.endpoint_url q0.endpoint,
           [("after", af), ("limit", toString PAGE_MAX_LIMIT)]⟩,
          Event.sleep]) := by
      have h1 := afterLoop_ok ed c (k + 1)
        { q0 with items := [], limit := PAGE_MAX_LIMIT } d1 cs af
        (by simp [hc]) haf (by simpa using hfa)
      rw [show k + 1 + 1 = k + 2 from rfl] at h1
      rw [h1, afterLoop_none ed c k
        { d1.toPage ed.default with items := [] }
        (by simp [CursorPageData.toPage, hd1])]
      simp
    rw [hc] at eb ef
    simp [CursorPage.get_all, CursorPage.hasBefore, CursorPage.hasAfter,
      hc, hbt, haf, eb, ef]

theorem c1_get_all_order_witness :
    Page.get_all exClient (0 + 2) exPall0 =
      (some (.ok (exPall0.items ++ exPm1.items ++ exP2.items)),
       [Event.fetch ⟨stripApiUrl exClient.apiUrl "/p",
          [("limit", toString PAGE_MAX_LIMIT)]⟩, Event.sleep,
        Event.fetch ⟨stripApiUrl exClient.apiUrl "/n",
          [("limit", toString PAGE_MAX_LIMIT)]⟩, Event.sleep]) ∧
    CursorPage.get_all exEndpoint exCClient (0 + 2) exQ0 =
      (some (.ok (exQ0.items ++ (exCD [some 10] none).items ++
        (exCD [some 3] none).items)),
       [Event.fetch ⟨exEndpoint.endpoint_url exQ0.endpoint,
          [("before", "b0"), ("limit", toString PAGE_MAX_LIMIT)]⟩, Event.sleep,
        Event.fetch ⟨exEndpoint.endpoint_url exQ0.endpoint,
          [("after", "a0"), ("limit", toString PAGE_MAX_LIMIT)]⟩,
        Event.sleep]) :=
  ⟨c1_get_all_order.1 Nat exClient exPall0 exPm1 exP2 "/p" "/n" 0
     rfl rfl rfl rfl rfl rfl,
   c1_get_all_order.2 Nat Nat exEndpoint exCClient exQ0
     (exCD [some 10] none) (exCD [some 3] none)
     { after := some "a0", before := some "b0" } "b0" "a0" 0
     rfl rfl rfl rfl rfl rfl rfl⟩

end SpotifyRs
